import Mathlib

/-!
Verification of the ai-sdk-slackbot tool-orchestration core.

Shallow embedding of the repository's tool registry (`src/lib/tools.ts`),
orchestration loop (`src/lib/generate-response.ts`), Slack event handlers
(`src/lib/handle-app-mention.ts`, `src/lib/handle-messages.ts`) and the
chunked message formatter, together with theorems settling the frozen
claims about them.

External effects (HTTP fetches, environment variables, LLM calls, the Slack
posting surface) are modelled as oracles passed explicitly: a network
interaction is a value of type `Except String (RawResp β)` whose `.error`
case stands for a thrown exception / rejected promise, whose `ok` and
`statusText` fields mirror the HTTP response object, and whose `body`
field mirrors the outcome of `response.json()` (again `.error` for a
parse throw).  TypeScript `throw` inside a tool body is the `Except`
monad's `throw`; the `try { ... } catch (error) { return { error } }`
boundary of every tool is the collapse of that `Except` into `ToolResult`.
-/

set_option maxRecDepth 8000

/-- The result shape every tool's `execute` hands back to the orchestrator:
either a tool-specific success payload or the error-shaped `{ error: string }`. -/
inductive ToolResult (α : Type) where
  | success (payload : α)
  | error (msg : String)
deriving DecidableEq, Repr

/-- True exactly on the error-shaped result. -/
def ToolResult.isError {α : Type} : ToolResult α → Bool
  | .success _ => false
  | .error _ => true

/-- Collapse of the `try/catch` tool boundary: a thrown exception becomes the
error-shaped result, mirroring `return { error: errorMessage }`. -/
def toToolResult {α : Type} : Except String α → ToolResult α
  | .ok a => ToolResult.success a
  | .error e => ToolResult.error e

/-- Model of an awaited `fetch` response: the HTTP-level `ok`/`statusText`
pair plus the outcome of parsing the body with `response.json()`
(`.error` = the parse threw). -/
structure RawResp (β : Type) where
  ok : Bool
  statusText : String
  body : Except String β

/-- Process environment as read by the tools (`process.env.*`); `none`
models an unset variable. -/
structure Env where
  jinaApiKey : Option String
  perplexityApiKey : Option String
  slackBotToken : Option String
deriving DecidableEq

/-- `if (!x) throw new Error(msg)` on an environment variable. -/
def requireKey (v : Option String) (msg : String) : Except String String :=
  match v with
  | none => .error msg
  | some k => .ok k

/-- JS `String.prototype.startsWith` (character-list model). -/
def strStartsWith (s p : String) : Bool :=
  List.isPrefixOf p.toList s.toList

/-! ## URL normalisation and deduplication (`deduplicateByDomainAndUrl`) -/

/-- Scheme shape accepted by the URL constructor: a letter followed by
letters, digits, `+`, `-` or `.`. -/
def schemeOkChars (cs : List Char) : Bool :=
  match cs with
  | [] => false
  | c :: rest => c.isAlpha && rest.all (fun d => d.isAlphanum || d == '+' || d == '-' || d == '.')

/-- Split a character list at the first occurrence of `://`, returning the
part before and the part after; `none` when `://` does not occur. -/
def splitSchemeSep : List Char → Option (List Char × List Char)
  | [] => none
  | ':' :: '/' :: '/' :: rest => some ([], rest)
  | c :: rest =>
    match splitSchemeSep rest with
    | none => none
    | some (a, b) => some (c :: a, b)

/-- The `(hostname, pathname)` pair extracted from a URL string. -/
structure UrlParts where
  hostname : String
  pathname : String
deriving DecidableEq

/-- Modelled from the platform: the WHATWG `new URL(s)` constructor as used by
`deduplicateByDomainAndUrl` (src/lib/tools.ts lines 14-16), restricted to the
absolute `scheme://host[:port]path[?query][#fragment]` shape.  `none` models
the constructor throwing on an invalid URL.  Userinfo and IPv6 literals are
outside the scope of the claims and are not treated specially. -/
def parseUrlChars (cs : List Char) : Option UrlParts :=
  match splitSchemeSep cs with
  | none => none
  | some (scheme, remainder) =>
    if schemeOkChars scheme then
      let hostPart := remainder.takeWhile (fun c => c != '/' && c != '?' && c != '#')
      let afterHost := remainder.drop hostPart.length
      let host := (hostPart.takeWhile (fun c => c != ':')).map Char.toLower
      if host.isEmpty then none
      else
        let path := afterHost.takeWhile (fun c => c != '?' && c != '#')
        some { hostname := host.asString
               pathname := (if path.isEmpty then ['/'] else path).asString }
    else none

/-- The dedup key `url.hostname + url.pathname` of src/lib/tools.ts line 16,
or `none` when the URL fails to parse (the constructor threw). -/
def urlKey (s : String) : Option String :=
  (parseUrlChars s.toList).map (fun u => u.hostname ++ u.pathname)

/-- The body of the `items.filter` closure of `deduplicateByDomainAndUrl`
(src/lib/tools.ts lines 13-25), with the mutable `seen` set threaded
explicitly: an unparseable URL is kept (the `catch` branch), a parseable one
is kept exactly when its key is not yet in `seen`. -/
def dedupeAux {α : Type} (getUrl : α → String) (seen : List String) : List α → List α
  | [] => []
  | item :: rest =>
    match urlKey (getUrl item) with
    | none => item :: dedupeAux getUrl seen rest
    | some key =>
      if key ∈ seen then dedupeAux getUrl seen rest
      else item :: dedupeAux getUrl (key :: seen) rest

/-- `deduplicateByDomainAndUrl` of src/lib/tools.ts lines 11-26 (generic over
the `{ url: string }`-bearing element type via `getUrl`). -/
def deduplicateByDomainAndUrl {α : Type} (getUrl : α → String) (items : List α) : List α :=
  dedupeAux getUrl [] items

/-- An entry type carrying a `url` field, as consumed by
`deduplicateByDomainAndUrl` in the search pipeline. -/
structure SearchEntry where
  url : String
  title : String
  description : String
deriving DecidableEq

/-! ## Chunked message formatter (`src/lib/handle-messages.ts` lines 216-276) -/

/-- Largest index `i` with `0 ≤ i ≤ bound` satisfying `p`, scanning downward;
models the result of `String.lastIndexOf(pattern, bound)` (which may also
match at index 0). -/
def scanDown0 (p : Nat → Bool) : Nat → Option Nat
  | 0 => if p 0 then some 0 else none
  | n + 1 => if p (n + 1) then some (n + 1) else scanDown0 p n

/-- Largest index `i` with `1 ≤ i ≤ bound` satisfying `p`, scanning downward;
models the `for (let i = limit; i > 0; i--)` sentence-break loop. -/
def scanDown1 (p : Nat → Bool) : Nat → Option Nat
  | 0 => none
  | n + 1 => if p (n + 1) then some (n + 1) else scanDown1 p n

/-- `text.lastIndexOf(String.fromCharCode(c), fromIdx)` as a JS-style index:
`-1` when the character does not occur at or before `fromIdx`. -/
def jsLastIndexOfChar (l : List Char) (c : Char) (fromIdx : Nat) : Int :=
  match scanDown0 (fun i => l[i]? == some c) fromIdx with
  | some i => (i : Int)
  | none => -1

/-- `text.lastIndexOf(two-character pattern, fromIdx)` (the pattern may start
at `fromIdx` and extend one character past it, exactly as in JS). -/
def jsLastIndexOfPair (l : List Char) (c₁ c₂ : Char) (fromIdx : Nat) : Int :=
  match scanDown0 (fun i => l[i]? == some c₁ && l[i + 1]? == some c₂) fromIdx with
  | some i => (i : Int)
  | none => -1

/-- The sentence-break test of `findBreakPoint` (src/lib/handle-messages.ts
line 263): `text[i]` is `.`, `!` or `?` and is followed by a space, a newline
or the end of the text. -/
def sentenceEndAt (l : List Char) (i : Nat) : Bool :=
  match l[i]? with
  | some c =>
    (c == '.' || c == '!' || c == '?') &&
      (i == l.length - 1 || l[i + 1]? == some ' ' || l[i + 1]? == some '\n')
  | none => false

/-- Last fallback layer of `findBreakPoint` (src/lib/handle-messages.ts
lines 268-275): the last space at or before `limit`, else the hard limit. -/
def fbpSpace (l : List Char) (limit : Nat) : Nat :=
  let lastSpace := jsLastIndexOfChar l ' ' limit
  if 0 < lastSpace then lastSpace.toNat + 1 else limit

/-- Sentence-break layer of `findBreakPoint` (lines 261-266): the downward
scan for `.`/`!`/`?` followed by a space, a newline or the text end. -/
def fbpSentence (l : List Char) (limit : Nat) : Nat :=
  match scanDown1 (sentenceEndAt l) limit with
  | some i => i + 1
  | none => fbpSpace l limit

/-- Single-newline layer of `findBreakPoint` (lines 255-258). -/
def fbpNewline (l : List Char) (limit : Nat) : Nat :=
  let lastNewline := jsLastIndexOfChar l '\n' limit
  if 0 < lastNewline then lastNewline.toNat + 1 else fbpSentence l limit

/-- `findBreakPoint(text, limit)` of src/lib/handle-messages.ts lines
243-276, with each sequential fallback layer split into its own definition:
prefer the last paragraph break at or before `limit`, then the last newline,
then the last sentence break, then the last space, falling back to the hard
`limit`.  The `> 0` guards mirror the JS comparisons against `lastIndexOf`
results. -/
def findBreakPoint (l : List Char) (limit : Nat) : Nat :=
  if l.length ≤ limit then l.length
  else
    let lastParagraphBreak := jsLastIndexOfPair l '\n' '\n' limit
    if 0 < lastParagraphBreak then lastParagraphBreak.toNat + 2
    else fbpNewline l limit

/-- JS `String.prototype.trim`. -/
def trimChars (l : List Char) : List Char :=
  ((l.dropWhile Char.isWhitespace).reverse.dropWhile Char.isWhitespace).reverse

/-- The `while (remainingText.length > 0)` loop of `splitTextIntoChunks`
(src/lib/handle-messages.ts lines 216-237), with explicit fuel (the text
shrinks at every iteration, so `length + 1` units of fuel always suffice). -/
def splitChunksGo (limit : Nat) : Nat → List Char → List (List Char)
  | 0, _ => []
  | fuel + 1, rem =>
    if rem.isEmpty then []
    else if rem.length ≤ limit then [rem]
    else
      let b := findBreakPoint rem limit
      trimChars (rem.take b) :: splitChunksGo limit fuel (trimChars (rem.drop b))

/-- `splitTextIntoChunks(text, maxChunkSize)` of src/lib/handle-messages.ts. -/
def splitTextIntoChunks (text : List Char) (limit : Nat) : List (List Char) :=
  splitChunksGo limit (text.length + 1) text

/-- The characters at which a block produced by `findBreakPoint` may end
without splitting a word: whitespace or sentence punctuation. -/
def breakChars : List Char := [' ', '\n', '.', '!', '?']

/-! ## webScrape (`src/lib/tools.ts` lines 32-97) -/

/-- The `data.data` payload of a Jina Reader response. -/
structure JinaData where
  title : String
  description : String
  content : String
  links : Option (List (String × String))
  images : Option (List (String × String))

/-- Parsed JSON body of a Jina Reader response: structured `code`/`status`
plus the payload. -/
structure JinaBody where
  code : Nat
  status : String
  data : JinaData

/-- Success payload of `webScrape.execute`. -/
structure ScrapeOut where
  title : String
  description : String
  content : String
  links : List (String × String)
  images : List (String × String)
  url : String

/-- Body of `webScrape.execute` up to its `try/catch` boundary
(src/lib/tools.ts lines 38-90): credential check, fetch, HTTP-`ok` check,
JSON parse, structured-code check, payload extraction.  `fetch` is the
oracle for the `r.jina.ai` interaction. -/
def webScrapeRun (env : Env) (url : String)
    (fetch : Except String (RawResp JinaBody)) : Except String ScrapeOut := do
  let _apiKey ← requireKey env.jinaApiKey "JINA_API_KEY environment variable is not set"
  let resp ← fetch
  if !resp.ok then
    throw ("Failed to scrape webpage: " ++ resp.statusText)
  else
    let data ← resp.body
    if data.code ≠ 200 then
      throw ("Failed to scrape webpage: " ++ data.status)
    else
      pure { title := data.data.title
             description := data.data.description
             content := data.data.content
             links := data.data.links.getD []
             images := data.data.images.getD []
             url := url }

/-- `webScrape.execute`: the body wrapped in the error-shaping `try/catch`. -/
def webScrapeExecute (env : Env) (url : String)
    (fetch : Except String (RawResp JinaBody)) : ToolResult ScrapeOut :=
  toToolResult (webScrapeRun env url fetch)

/-! ## jinaSearch (`src/lib/tools.ts` lines 103-399) -/

/-- Parsed JSON body of a Jina Search (`s.jina.ai`) response. -/
structure SearchBody where
  code : Nat
  status : String
  data : List SearchEntry

/-- One element of the mutable `allSearchResults` aggregate
(src/lib/tools.ts lines 169-175). -/
structure AllResult where
  query : String
  url : String
  title : String
  description : String
  source : String
deriving DecidableEq

/-- Parsed JSON body of a Jina Reader content fetch inside the search
pipeline; `content` is optional (`contentData.data.content?`). -/
structure ContentBody where
  code : Nat
  status : String
  content : Option String

/-- A selected search result together with its fetched full content. -/
structure ResultWithContent where
  query : String
  url : String
  title : String
  description : String
  source : String
  content : String
deriving DecidableEq

/-- The oracle bundle for one `jinaSearch.execute` invocation: the
query-generation LLM call, the per-subquery search fetches, the
result-selection LLM call and the per-URL content fetches.  Each `.error`
models the corresponding awaited call throwing / rejecting. -/
structure JinaOracles where
  genQueries : Except String (List String)
  searchFetch : String → Except String (RawResp SearchBody)
  selection : Except String (List Nat)
  contentFetch : String → Except String (RawResp ContentBody)

/-- Contribution of one subquery to `allSearchResults`
(src/lib/tools.ts lines 178-256): the whole per-promise body sits in its own
`try/catch`, so a thrown fetch, a non-OK HTTP response, a JSON-parse throw
and a non-200 structured code each degrade to an empty contribution; a
successful response contributes its first 15 results, deduplicated, tagged
with the source query. -/
def perQueryResults (sfetch : String → Except String (RawResp SearchBody))
    (q : String) : List AllResult :=
  match sfetch q with
  | .error _ => []
  | .ok resp =>
    if !resp.ok then []
    else
      match resp.body with
      | .error _ => []
      | .ok data =>
        if data.code ≠ 200 then []
        else
          (deduplicateByDomainAndUrl SearchEntry.url (data.data.take 15)).map
            (fun r => { query := q, url := r.url, title := r.title,
                        description := r.description,
                        source := "Query: \"" ++ q ++ "\"" })

/-- The `allSearchResults` aggregate after all search promises resolve,
in dispatch order (the model's scheduling of the concurrent pushes). -/
def collectAllResults (sfetch : String → Except String (RawResp SearchBody)) :
    List String → List AllResult
  | [] => []
  | q :: rest => perQueryResults sfetch q ++ collectAllResults sfetch rest

/-- Split on whitespace runs (model of `content.split(/\s+/)` restricted to
the run-collapsed words; empty-boundary artifacts are irrelevant to the
claims). -/
def splitWordsAux : List Char → List Char → List (List Char)
  | [], acc => if acc.isEmpty then [] else [acc.reverse]
  | c :: rest, acc =>
    if c.isWhitespace then
      if acc.isEmpty then splitWordsAux rest []
      else acc.reverse :: splitWordsAux rest []
    else splitWordsAux rest (c :: acc)

/-- Join word fragments with single spaces (model of `.join` with a space). -/
def joinSpace : List String → String
  | [] => ""
  | [s] => s
  | s :: rest => s ++ " " ++ joinSpace rest

/-- `contentData.data.content?.split(/\s+/).slice(0, 1500)` joined with spaces, `+ '...' || ''`
(src/lib/tools.ts line 358): the first 1500 whitespace-separated words with a
`...` suffix; when `content` is absent the optional chain yields `undefined`
and JS string concatenation produces the (truthy) string `undefined...`. -/
def truncateContent (c : Option String) : String :=
  match c with
  | some s => joinSpace (((splitWordsAux s.toList []).take 1500).map List.asString) ++ "..."
  | none => "undefined..."

/-- `Promise.all` over `Except`: the first rejection rejects the whole
aggregate, otherwise all members resolve in order. -/
def mapME {α β : Type} (f : α → Except String β) : List α → Except String (List β)
  | [] => .ok []
  | a :: rest =>
    match f a with
    | .error e => .error e
    | .ok b =>
      match mapME f rest with
      | .error e => .error e
      | .ok bs => .ok (b :: bs)

/-- One member of the `contentPromises` fan-out (src/lib/tools.ts lines
323-364).  There is no per-member `try/catch` here: a thrown fetch or JSON
parse rejects the member (and hence, through `Promise.all`, the whole tool
body), while a non-OK HTTP response or non-200 structured code degrade to an
error-annotated `content` string.  An out-of-range selected index makes
`allSearchResults[index]` undefined and the subsequent `result.url` access
throw. -/
def fetchContentFor (all : List AllResult)
    (cfetch : String → Except String (RawResp ContentBody)) (index : Nat) :
    Except String ResultWithContent :=
  match all.get? index with
  | none => .error "TypeError: Cannot read properties of undefined (reading url)"
  | some r =>
    match cfetch r.url with
    | .error e => .error e
    | .ok resp =>
      if !resp.ok then
        .ok { query := r.query, url := r.url, title := r.title,
              description := r.description, source := r.source,
              content := "Failed to fetch content: " ++ resp.statusText }
      else
        match resp.body with
        | .error e => .error e
        | .ok data =>
          if data.code ≠ 200 then
            .ok { query := r.query, url := r.url, title := r.title,
                  description := r.description, source := r.source,
                  content := "Failed to fetch content: " ++ data.status }
          else
            .ok { query := r.query, url := r.url, title := r.title,
                  description := r.description, source := r.source,
                  content := truncateContent data.content }

/-- Success payload of `jinaSearch.execute`; `errorNote` models the `error`
field that the zero-results branch adds to its (otherwise success-shaped)
return value. -/
structure JinaOut where
  originalQuery : String
  searchDate : String
  searchTime : String
  searches : List String
  results : List ResultWithContent
  resultCount : Nat
  errorNote : Option String
deriving DecidableEq

/-- Body of `jinaSearch.execute` up to its `try/catch` boundary
(src/lib/tools.ts lines 109-392): credential check, query generation,
concurrent subquery fan-out into `allSearchResults`, LLM selection of up to
10 indices, concurrent content fetches for the selected results, and the
zero-aggregate branch. -/
def jinaSearchRun (env : Env) (query currentDate currentTime : String)
    (o : JinaOracles) : Except String JinaOut := do
  let _apiKey ← requireKey env.jinaApiKey "JINA_API_KEY environment variable is not set"
  let queries ← o.genQueries
  let allResults := collectAllResults o.searchFetch queries
  if 0 < allResults.length then do
    let sel ← o.selection
    let selectedIndices := sel.take 10
    let results ← mapME (fetchContentFor allResults o.contentFetch) selectedIndices
    pure { originalQuery := query, searchDate := currentDate,
           searchTime := currentTime, searches := queries,
           results := results, resultCount := results.length,
           errorNote := none }
  else
    pure { originalQuery := query, searchDate := currentDate,
           searchTime := currentTime, searches := queries,
           results := [], resultCount := 0,
           errorNote := some "No search results found across all queries" }

/-- `jinaSearch.execute`: the body wrapped in the error-shaping `try/catch`. -/
def jinaSearchExecute (env : Env) (query currentDate currentTime : String)
    (o : JinaOracles) : ToolResult JinaOut :=
  toToolResult (jinaSearchRun env query currentDate currentTime o)

/-! ## quickSearch and deepResearch (`src/lib/tools.ts` lines 401-494) -/

/-- Success payload of `quickSearch.execute`. -/
structure QuickOut where
  text : String
  sources : List String
  query : String
deriving DecidableEq

/-- `quickSearch.execute` (src/lib/tools.ts lines 406-429): the grounded
`generateText` call is the only fallible step; its outcome is the `gen`
oracle and a throw is converted by the `catch`. -/
def quickSearchExecute (query : String)
    (gen : Except String (String × List String)) : ToolResult QuickOut :=
  toToolResult (do
    let r ← gen
    pure { text := r.1, sources := r.2, query := query })

/-- Success payload of `deepResearch.execute`. -/
structure DeepOut where
  research : String
  sources : List String
  query : String
deriving DecidableEq

/-- Body of `deepResearch.execute` (src/lib/tools.ts lines 446-487):
credential check then the Perplexity `generateText` call. -/
def deepResearchRun (env : Env) (query : String)
    (gen : Except String (String × List String)) : Except String DeepOut := do
  let _apiKey ← requireKey env.perplexityApiKey
    "PERPLEXITY_API_KEY environment variable is not set"
  let r ← gen
  pure { research := r.1, sources := r.2, query := query }

/-- `deepResearch.execute`: the body wrapped in the error-shaping
`try/catch`. -/
def deepResearchExecute (env : Env) (query : String)
    (gen : Except String (String × List String)) : ToolResult DeepOut :=
  toToolResult (deepResearchRun env query gen)

/-! ## Slack canvas tools (`src/lib/tools.ts` lines 500-960) -/

/-- Parsed JSON body of a Slack Web API response: the API-level `ok`/`error`
pair plus the endpoint-specific payload. -/
structure SlackBody (α : Type) where
  ok : Bool
  error : String
  payload : α

/-- JS `a || b` on an optional string: `undefined` and `""` are falsy. -/
def jsOrElse (a : Option String) (b : String) : String :=
  match a with
  | none => b
  | some "" => b
  | some s => s

/-- One entry of the `files.list` payload consumed by `listCanvases`. -/
structure CanvasFile where
  id : String
  title : Option String
  name : String
  permalink : String
  permalink_public : Option String
  url_private : String

/-- One entry of the `listCanvases` success payload. -/
structure CanvasListEntry where
  id : String
  title : String
  url : String
  slackUrl : String
deriving DecidableEq

/-- Body of `listCanvases.execute` (src/lib/tools.ts lines 504-531): token
check, fetch, JSON parse (note: the HTTP `ok` flag is never consulted here —
the code goes straight to `response.json()`), Slack-level `ok` check, then
the mapping over `data.files`. -/
def listCanvasesRun (env : Env)
    (fetch : Except String (RawResp (SlackBody (List CanvasFile)))) :
    Except String (List CanvasListEntry) := do
  let _token ← requireKey env.slackBotToken "SLACK_BOT_TOKEN environment variable is not set"
  let resp ← fetch
  let data ← resp.body
  if !data.ok then
    throw ("Slack API error: " ++ data.error)
  else
    pure (data.payload.map (fun canvas =>
      { id := canvas.id
        title := jsOrElse canvas.title canvas.name
        url := canvas.permalink
        slackUrl := jsOrElse canvas.permalink_public canvas.url_private }))

/-- `listCanvases.execute`: the body wrapped in the error-shaping
`try/catch`. -/
def listCanvasesExecute (env : Env)
    (fetch : Except String (RawResp (SlackBody (List CanvasFile)))) :
    ToolResult (List CanvasListEntry) :=
  toToolResult (listCanvasesRun env fetch)

/-- The ambient runtime context injected by the orchestrator
(`options.context`). -/
structure CtxInfo where
  channelId : Option String
  threadTs : Option String

/-- A request issued by `createCanvas` to the Slack canvas store. -/
inductive SlackCanvasReq where
  | create (title markdown : String)
  | accessSet (canvasId channelId : String)
deriving DecidableEq

/-- Parsed JSON body of a `canvases.create` response. -/
structure CreateBody where
  ok : Bool
  error : String
  canvas_id : String

/-- Success payload of `createCanvas.execute`. -/
structure CreateOut where
  canvasId : String
  channelId : String
  title : String
  url : String
  slackUrl : String
deriving DecidableEq

/-- `createCanvas.execute` (src/lib/tools.ts lines 550-631), paired with the
list of requests it issued to the canvas store.  The guards run in source
order: missing/empty `channelId` (JS falsiness), the `D`-prefixed
assistant-thread check, the token check — all before any request is issued.
A failing `canvases.create` with the specific `channel_canvas_already_exists`
error is returned (not thrown) as an error-shaped result; every other
failure is thrown and shaped by the `catch`. -/
def createCanvasExecute (env : Env) (ctx : CtxInfo) (markdown title : String)
    (createF : Except String (RawResp CreateBody))
    (accessF : Except String (RawResp (SlackBody Unit))) :
    ToolResult CreateOut × List SlackCanvasReq :=
  match ctx.channelId with
  | none => (.error "No channel ID available in context", [])
  | some channelId =>
    if channelId = "" then (.error "No channel ID available in context", [])
    else if strStartsWith channelId "D" then
      (.error ("Cannot create a new canvas in an assistant thread. Please update the existing canvas instead or inform the user that you cannot create a new canvas in an assistant thread."), [])
    else
      match env.slackBotToken with
      | none => (.error "SLACK_BOT_TOKEN environment variable is not set", [])
      | some _ =>
        let reqs := [SlackCanvasReq.create title markdown]
        match createF with
        | .error e => (.error e, reqs)
        | .ok resp =>
          match resp.body with
          | .error e => (.error e, reqs)
          | .ok data =>
            if !data.ok then
              if data.error = "channel_canvas_already_exists" then
                (.error "A canvas with this title already exists in the channel. Please use a different title or use the updateCanvas tool to modify the existing canvas.", reqs)
              else (.error ("Slack API error: " ++ data.error), reqs)
            else
              let canvasId := data.canvas_id
              let reqs2 := reqs ++ [SlackCanvasReq.accessSet canvasId channelId]
              match accessF with
              | .error e => (.error e, reqs2)
              | .ok aresp =>
                match aresp.body with
                | .error e => (.error e, reqs2)
                | .ok adata =>
                  if !adata.ok then
                    (.error ("Failed to set canvas access: " ++ adata.error), reqs2)
                  else
                    (.success
                      { canvasId := canvasId
                        channelId := channelId
                        title := title
                        url := "https://slack.com/docs/" ++ channelId ++ "/" ++ canvasId
                        slackUrl := "slack://docs/" ++ channelId ++ "/" ++ canvasId },
                     reqs2)

/-- One section of a canvas as returned by `canvases.sections.lookup`. -/
structure CanvasSection where
  id : String
  content : String
  sectionType : String
deriving DecidableEq

/-- Success payload of `sectionLookup.execute`. -/
structure SectionsOut where
  sections : List CanvasSection
deriving DecidableEq

/-- Body of `sectionLookup.execute` (src/lib/tools.ts lines 644-679): token
check, fetch of `canvases.sections.lookup`, JSON parse, Slack-level `ok`
check, then the identity mapping over the returned sections. -/
def sectionLookupRun (env : Env)
    (fetch : Except String (RawResp (SlackBody (List CanvasSection)))) :
    Except String SectionsOut := do
  let _token ← requireKey env.slackBotToken "SLACK_BOT_TOKEN environment variable is not set"
  let resp ← fetch
  let data ← resp.body
  if !data.ok then
    throw ("Slack API error: " ++ data.error)
  else
    pure { sections := data.payload.map (fun s =>
      { id := s.id, content := s.content, sectionType := s.sectionType }) }

/-- `sectionLookup.execute`: the body wrapped in the error-shaping
`try/catch`. -/
def sectionLookupExecute (env : Env)
    (fetch : Except String (RawResp (SlackBody (List CanvasSection)))) :
    ToolResult SectionsOut :=
  toToolResult (sectionLookupRun env fetch)

/-- The `operation` enum of the `makeEdits` parameter schema. -/
inductive ChangeOp where
  | insert_after
  | insert_before
  | insert_at_start
  | insert_at_end
  | replace
  | delete
deriving DecidableEq

/-- One element of the `changes` array of `makeEdits`: the operation, the
optional `section_id`, and the markdown of the optional
`document_content`. -/
structure EditChange where
  operation : ChangeOp
  section_id : Option String
  markdown : Option String
deriving DecidableEq

/-- Success payload of `makeEdits.execute`. -/
structure EditOut where
  success : Bool
  canvasId : String
  url : String
  slackUrl : String
deriving DecidableEq

/-- Body of `makeEdits.execute` (src/lib/tools.ts lines 705-741): token
check, `canvases.edit` fetch, JSON parse, Slack-level `ok` check.  Note that
no validation of the `section_id`s in `changes` happens here — the change
list is forwarded to the store as-is. -/
def makeEditsRun (env : Env) (canvasId : String)
    (fetch : Except String (RawResp (SlackBody Unit))) :
    Except String EditOut := do
  let _token ← requireKey env.slackBotToken "SLACK_BOT_TOKEN environment variable is not set"
  let resp ← fetch
  let data ← resp.body
  if !data.ok then
    throw ("Slack API error: " ++ data.error)
  else
    pure { success := true
           canvasId := canvasId
           url := "https://slack.com/docs/" ++ canvasId
           slackUrl := "slack://docs/" ++ canvasId }

/-- `makeEdits.execute`: the body wrapped in the error-shaping `try/catch`. -/
def makeEditsExecute (env : Env) (canvasId : String)
    (fetch : Except String (RawResp (SlackBody Unit))) : ToolResult EditOut :=
  toToolResult (makeEditsRun env canvasId fetch)

/-- The `file` payload of `files.info` consumed by `canvasRead`. -/
structure FileInfo where
  id : String
  title : String
  created : Nat
  permalink : String
  url_private : String
  is_public : Bool
  user : String

/-- Model of an awaited `fetch` whose body is read with `response.text()`. -/
structure TextResp where
  ok : Bool
  statusText : String
  text : String

/-- Success payload of `canvasRead.execute`. -/
structure CanvasDoc where
  id : String
  title : String
  created : Nat
  permalink : String
  content : String
  is_public : Bool
  user : String

/-- Body of `canvasRead.execute` (src/lib/tools.ts lines 894-953): token
check, `files.info` fetch and JSON parse (the HTTP `ok` flag of the info
response is never consulted), Slack-level `ok` check, then the raw content
fetch from `file.url_private` with an HTTP-`ok` check and `response.text()`. -/
def canvasReadRun (env : Env)
    (infoFetch : Except String (RawResp (SlackBody FileInfo)))
    (contentFetch : String → Except String TextResp) :
    Except String CanvasDoc := do
  let _token ← requireKey env.slackBotToken "SLACK_BOT_TOKEN environment variable is not set"
  let iresp ← infoFetch
  let idata ← iresp.body
  if !idata.ok then
    throw ("Slack API error: " ++ idata.error)
  else
    let file := idata.payload
    let cresp ← contentFetch file.url_private
    if !cresp.ok then
      throw ("Failed to fetch canvas content: " ++ cresp.statusText)
    else
      pure { id := file.id, title := file.title, created := file.created,
             permalink := file.permalink, content := cresp.text,
             is_public := file.is_public, user := file.user }

/-- `canvasRead.execute`: the body wrapped in the error-shaping
`try/catch`. -/
def canvasReadExecute (env : Env)
    (infoFetch : Except String (RawResp (SlackBody FileInfo)))
    (contentFetch : String → Except String TextResp) : ToolResult CanvasDoc :=
  toToolResult (canvasReadRun env infoFetch contentFetch)

/-! ## Canvas Editor Agent nested loop (`src/lib/tools.ts` lines 749-883) -/

/-- A tool call issued by the nested LLM of the canvas editor agent: one of
the exactly two internal tools. -/
inductive AgentCall where
  | lookup (canvasId query : String)
  | edits (canvasId : String) (changes : List EditChange)
deriving DecidableEq

/-- The result of executing one nested tool call. -/
inductive AgentCallOut where
  | lookupOut (r : ToolResult SectionsOut)
  | editsOut (r : ToolResult EditOut)
deriving DecidableEq

/-- One entry of the nested session transcript: the user prompt or a
recorded tool call with its result. -/
inductive AEntry where
  | userMsg (text : String)
  | toolRec (call : AgentCall) (out : AgentCallOut)
deriving DecidableEq

/-- One decision of the nested LLM: a final answer, or a step's text plus
tool calls. -/
inductive AgentDecision where
  | final (text : String)
  | calls (text : String) (calls : List AgentCall)

/-- The canvas store as seen by the two internal tools: oracles for the
`canvases.sections.lookup` and `canvases.edit` interactions. -/
structure AgentStore where
  lookupFetch : String → String → Except String (RawResp (SlackBody (List CanvasSection)))
  editFetch : String → List EditChange → Except String (RawResp (SlackBody Unit))

/-- Dispatch of one nested tool call to the corresponding wrapped internal
tool (`enhancedTools` of src/lib/tools.ts lines 775-784): the wrappers merge
options and delegate to `sectionLookup.execute` / `makeEdits.execute`. -/
def execAgentCall (env : Env) (store : AgentStore) : AgentCall → AgentCallOut
  | .lookup canvasId query => .lookupOut (sectionLookupExecute env (store.lookupFetch canvasId query))
  | .edits canvasId changes => .editsOut (makeEditsExecute env canvasId (store.editFetch canvasId changes))

/-- Modelled from the spec: the ai-SDK `generateText` bounded tool-calling
loop (`runSession(systemInstructions, transcript, toolRegistry, maxSteps)`
of spec section 6), instantiated for the nested canvas-editing agent.  The
library loop itself is not part of the repository; per spec section 4.3 each
step either ends with a final answer or dispatches the requested tool calls,
appends their results to the transcript and continues with one unit less
fuel, and on fuel exhaustion the last available text is returned.  Returns
the final text, the number of LLM steps consumed, and the trace of executed
tool calls.  An `.error` from the LLM oracle models the `generateText` call
itself faulting, which aborts the loop. -/
def runAgentSession (llm : List AEntry → Except String AgentDecision)
    (env : Env) (store : AgentStore) :
    Nat → List AEntry → String → Except String (String × Nat × List (AgentCall × AgentCallOut))
  | 0, _, last => .ok (last, 0, [])
  | fuel + 1, tr, _ =>
    match llm tr with
    | .error e => .error e
    | .ok (.final t) => .ok (t, 1, [])
    | .ok (.calls t cs) =>
      let outs := cs.map (fun c => (c, execAgentCall env store c))
      match runAgentSession llm env store fuel
          (tr ++ outs.map (fun co => AEntry.toolRec co.1 co.2)) t with
      | .error e => .error e
      | .ok (t2, n, trace2) => .ok (t2, n + 1, outs ++ trace2)

/-- Success payload of `canvasEditorAgent.execute`: the nested session's
final text and the internal tool calls it performed. -/
structure AgentOut where
  text : String
  trace : List (AgentCall × AgentCallOut)

/-- The user prompt handed to the nested LLM (src/lib/tools.ts lines
854-863). -/
def agentPrompt (canvasId canvasContent requestedChanges : String) : String :=
  "Canvas ID: " ++ canvasId ++ "\nCurrent Canvas Content:\n" ++ canvasContent ++
    "\n\nRequested changes: " ++ requestedChanges

/-- `canvasEditorAgent.execute` (src/lib/tools.ts lines 755-882): read the
canvas via `canvasRead.execute` (an error-shaped read result is re-thrown
with a `Failed to read canvas:` prefix), then run the nested bounded loop
with `maxSteps: 8` over exactly the two internal tools; any fault of the
nested `generateText` call is shaped by the outer `catch`. -/
def canvasEditorAgentExecute (env : Env) (canvasId requestedChanges : String)
    (infoFetch : Except String (RawResp (SlackBody FileInfo)))
    (contentFetch : String → Except String TextResp)
    (llm : List AEntry → Except String AgentDecision)
    (store : AgentStore) : ToolResult AgentOut :=
  match canvasReadExecute env infoFetch contentFetch with
  | .error e => .error ("Failed to read canvas: " ++ e)
  | .success doc =>
    match runAgentSession llm env store 8
        [AEntry.userMsg (agentPrompt canvasId doc.content requestedChanges)] "" with
    | .error e => .error e
    | .ok (t, _, trace) => .success { text := t, trace := trace }

/-- The section ids referenced by one element of a `changes` array. -/
def changeIds (ch : EditChange) : List String :=
  match ch.section_id with
  | some s => [s]
  | none => []

/-- The section ids referenced by one element of a `changes` array, when the
operation is a deletion. -/
def deleteIds (ch : EditChange) : List String :=
  match ch.operation with
  | .delete => changeIds ch
  | _ => []

/-- The section ids referenced by a nested tool call. -/
def callRefIds : AgentCall → List String
  | .lookup _ _ => []
  | .edits _ changes => (changes.map changeIds).flatten

/-- The section ids resolved (returned) by one executed nested tool call. -/
def outResolvedIds : AgentCall × AgentCallOut → List String
  | (.lookup _ _, .lookupOut (.success out)) => out.sections.map (fun s => s.id)
  | _ => []

/-- The section ids resolved by the lookups recorded in a transcript. -/
def resolvedInEntries (tr : List AEntry) : List String :=
  (tr.map (fun e =>
    match e with
    | .toolRec c o => outResolvedIds (c, o)
    | _ => [])).flatten

/-- A trace is lookup-disciplined relative to already-resolved ids `R`:
every section id referenced by a call was resolved before it (by `R` or by
an earlier lookup in the trace). -/
def TraceOk (R : List String) : List (AgentCall × AgentCallOut) → Prop
  | [] => True
  | co :: rest => (∀ i ∈ callRefIds co.1, i ∈ R) ∧ TraceOk (R ++ outResolvedIds co) rest

/-- An LLM collaborator is lookup-compliant when every section id it
references in a tool call was resolved by a lookup recorded in the
transcript it was shown (the workflow the agent's system prompt instructs). -/
def LookupCompliant (llm : List AEntry → Except String AgentDecision) : Prop :=
  ∀ tr t cs, llm tr = .ok (.calls t cs) →
    ∀ c ∈ cs, ∀ i ∈ callRefIds c, i ∈ resolvedInEntries tr

/-! ## Orchestrator (`src/lib/generate-response.ts`) -/

/-- A tool call of the outer loop, abstracted to the tool name and its
serialized arguments. -/
structure ToolCall where
  name : String
  args : String
deriving DecidableEq

/-- The observable outcome of one outer tool execution: the result fed back
to the LLM and the status strings emitted to the reporter while running. -/
structure ExecOut where
  result : String
  statuses : List String

/-- A tool registry entry (`{description, parameters, execute}`). -/
structure ToolSpec where
  descr : String
  params : String
  exec : ToolCall → ExecOut

/-- One entry of the outer session transcript. -/
inductive Entry where
  | message (role text : String)
  | toolResult (call : ToolCall) (result : String)

/-- One decision of the outer LLM. -/
inductive Decision where
  | final (text : String)
  | calls (text : String) (calls : List ToolCall)

/-- The per-tool status line of the `switch (name)` in the wrapped execute
(src/lib/generate-response.ts lines 25-41). -/
def toolStatusMsg (name : String) : String :=
  if name = "webScrape" then "is scraping a webpage..."
  else if name = "jinaSearch" then "is searching the web..."
  else if name = "deepResearch" then "is conducting deep research..."
  else "is using " ++ name ++ "..."

/-- The wrapped execute built per-invocation when a reporter is present
(src/lib/generate-response.ts lines 23-51): emit the per-tool status, call
the original execute, emit `is analyzing results...`, and return the
original result unchanged.  The original execute is invoked with the
library-supplied options, which do not carry `updateStatus`, so any statuses
the original would emit through an injected reporter do not surface. -/
def wrapSpec (name : String) (t : ToolSpec) : ToolSpec :=
  { descr := t.descr
    params := t.params
    exec := fun c => { result := (t.exec c).result
                       statuses := [toolStatusMsg name, "is analyzing results..."] } }

/-- The `Object.entries(originalTools).reduce` of
src/lib/generate-response.ts lines 18-68: when a reporter is present every
entry is rebuilt as a fresh object with a wrapped execute; otherwise the
original entries are used as-is. -/
def wrapTools (hasReporter : Bool) (ts : List (String × ToolSpec)) :
    List (String × ToolSpec) :=
  ts.foldl (fun acc p =>
    if hasReporter then acc ++ [(p.1, wrapSpec p.1 p.2)]
    else acc ++ [(p.1, p.2)]) []

/-- Name-keyed lookup in a registry. -/
def lookupTool (ts : List (String × ToolSpec)) (name : String) : Option ToolSpec :=
  (ts.find? (fun p => p.1 == name)).map (fun p => p.2)

/-- Dispatch one tool call of the outer loop. -/
def execCall (ts : List (String × ToolSpec)) (c : ToolCall) : ExecOut :=
  match lookupTool ts c.name with
  | some t => t.exec c
  | none => { result := "", statuses := [] }

/-- Modelled from the spec: the ai-SDK `generateText` bounded tool-calling
loop (`runSession` of spec section 6) as configured by `generateResponse`:
at each step the LLM either finishes with a final text or requests tool
calls, which are executed, appended to the transcript as tool results, and
looped with one unit less fuel; on fuel exhaustion the last available text
is returned as-is.  The `onStepFinish` hook's status (`finalizeNote`) is
emitted after every step that produced at least one tool result.  Returns
the final text, the LLM steps consumed, and the emitted status strings. -/
def runSession (llm : List Entry → Except String Decision)
    (ts : List (String × ToolSpec)) (finalizeNote : List String) :
    Nat → List Entry → String → Except String (String × Nat × List String)
  | 0, _, last => .ok (last, 0, [])
  | fuel + 1, tr, _ =>
    match llm tr with
    | .error e => .error e
    | .ok (.final t) => .ok (t, 1, [])
    | .ok (.calls t cs) =>
      let outs := cs.map (fun c => (c, execCall ts c))
      let stepStatuses := (outs.map (fun co => co.2.statuses)).flatten ++
        (if cs.isEmpty then [] else finalizeNote)
      match runSession llm ts finalizeNote fuel
          (tr ++ outs.map (fun co => Entry.toolResult co.1 co.2.result)) t with
      | .error e => .error e
      | .ok (t2, n, log) => .ok (t2, n + 1, stepStatuses ++ log)

/-- Split a character list at the first occurrence of `c` (dropping `c`). -/
def splitAtFirst (c : Char) : List Char → Option (List Char × List Char)
  | [] => none
  | d :: rest =>
    if d == c then some ([], rest)
    else
      match splitAtFirst c rest with
      | none => none
      | some p => some (d :: p.1, p.2)

/-- Model of `text.replace(/\[(.*?)\]\((.*?)\)/g, '<$2|$1>')` for the
non-nested link shapes the regex is aimed at: each `[text](url)` becomes
`<url|text>`.  Fuel-based recursion (the remainder shrinks at every step). -/
def linkFixGo : Nat → List Char → List Char
  | 0, cs => cs
  | fuel + 1, cs =>
    match cs with
    | [] => []
    | '[' :: rest =>
      match splitAtFirst ']' rest with
      | some (txt, '(' :: rest3) =>
        match splitAtFirst ')' rest3 with
        | some (url, rest4) =>
          '<' :: (url ++ '|' :: (txt ++ '>' :: linkFixGo fuel rest4))
        | none => '[' :: linkFixGo fuel rest
      | _ => '[' :: linkFixGo fuel rest
    | c :: rest => c :: linkFixGo fuel rest

/-- `text.replace(/\*\*/g, '*')`: collapse each non-overlapping `**` to
`*`, scanning left to right. -/
def boldFix : List Char → List Char
  | '*' :: '*' :: rest => '*' :: boldFix rest
  | c :: rest => c :: boldFix rest
  | [] => []

/-- The mrkdwn post-processing of src/lib/generate-response.ts line 125:
markdown links to Slack links, then `**` to `*`. -/
def formatSlack (s : String) : String :=
  (boldFix (linkFixGo (s.toList.length + 1) s.toList)).asString

/-- A status reporter as passed to `generateResponse`: called
fire-and-forget (the returned promise is never awaited), so its outcome —
`.error` modelling a rejection — is recorded but never consumed. -/
def Reporter : Type := String → Except String Unit

/-- Emission of a batch of status strings through an optional reporter:
each call's (discarded) outcome is paired with the text. -/
def emitAll (reporter : Option Reporter) (msgs : List String) :
    List (String × Except String Unit) :=
  match reporter with
  | none => []
  | some f => msgs.map (fun m => (m, f m))

/-- `generateResponse` (src/lib/generate-response.ts lines 5-132): emit
`is thinking...` when a reporter is present, build the per-invocation
wrapped tool set, run the bounded LLM session with `maxSteps: 10`, and
post-process the final text into Slack mrkdwn.  The `catch` logs and
re-throws, so a faulting LLM call propagates unchanged to the caller.
Returns the propagated-or-final result together with the reporter
emissions. -/
def generateResponseRun (llm : List Entry → Except String Decision)
    (registry : List (String × ToolSpec)) (reporter : Option Reporter)
    (messages : List Entry) :
    Except String String × List (String × Except String Unit) :=
  let hasReporter := reporter.isSome
  let initial := if hasReporter then ["is thinking..."] else []
  let wrapped := wrapTools hasReporter registry
  let finalizeNote := if hasReporter then ["is finalizing response..."] else []
  match runSession llm wrapped finalizeNote 10 messages "" with
  | .error e => (.error e, emitAll reporter initial)
  | .ok (t, _, log) => (.ok (formatSlack t), emitAll reporter (initial ++ log))

/-! ## Event handlers (`src/lib/handle-app-mention.ts`, `src/lib/handle-messages.ts`) -/

/-- The fields of an inbound Slack message/mention event consumed by the
handlers. -/
structure MsgEvent where
  bot_id : Option String
  bot_profile : Bool
  thread_ts : Option String
  ts : String
  channel : String
  text : String

/-- Substring test (JS `String.prototype.includes`). -/
def hasSub (needle : List Char) : List Char → Bool
  | [] => needle.isEmpty
  | c :: rest => List.isPrefixOf needle (c :: rest) || hasSub needle rest

/-- Whether a transcript entry's content mentions `research`
(src/lib/handle-messages.ts line 65). -/
def entryHasResearch : Entry → Bool
  | .message _ t => hasSub "research".toList t.toList
  | .toolResult _ r => hasSub "research".toList r.toList

/-- JS `String.prototype.indexOf` for a single character. -/
def jsIndexOfChar (cs : List Char) (c : Char) : Int :=
  match cs.findIdx? (fun d => d == c) with
  | some i => (i : Int)
  | none => -1

/-- `potentialTitle.replace(/^#+\s*/, '')` (src/lib/handle-messages.ts line
95): strip a leading run of `#` and the whitespace after it. -/
def stripHeading (cs : List Char) : List Char :=
  match cs with
  | '#' :: _ => (cs.dropWhile (fun c => c == '#')).dropWhile Char.isWhitespace
  | _ => cs

/-- The canvas title extraction of src/lib/handle-messages.ts lines 90-95:
the trimmed first line (at most 100 characters) when the first newline sits
at a positive index, else the fixed `Research Report`, with markdown heading
markers stripped. -/
def extractTitle (result : String) : String :=
  let cs := result.toList
  let firstLineBreak := jsIndexOfChar cs '\n'
  let potentialTitle :=
    if 0 < firstLineBreak then trimChars (cs.take (min firstLineBreak.toNat 100))
    else "Research Report".toList
  (stripHeading potentialTitle).asString

/-- The chat message announcing a created research canvas
(src/lib/handle-messages.ts lines 114-135); the exact surface wording is
irrelevant to every claim and is represented by a tagged marker around the
canvas id and title. -/
def canvasReportMsg (canvasId title : String) : String :=
  "research-canvas-link:" ++ canvasId ++ "|" ++ title

/-- The per-chunk texts of `sendSplitMessages` (src/lib/handle-messages.ts
lines 189-208): the first chunk verbatim, later chunks with the
`(continued i/n)` prefix. -/
def chunkMessageTexts (chunks : List String) : List String :=
  chunks.enum.map (fun p =>
    if p.1 = 0 then p.2
    else "(continued " ++ toString (p.1 + 1) ++ "/" ++ toString chunks.length ++ "):\n\n" ++ p.2)

/-- Sequentially post a list of texts: a failing post stops the remaining
posts of this batch (the async function rejects) but the rejection is
discarded by the caller, which invokes `sendSplitMessages` without
awaiting it. -/
def postSeq (post : String → Except String Unit) : List String → List String
  | [] => []
  | t :: rest =>
    match post t with
    | .error _ => []
    | .ok _ => t :: postSeq post rest

/-- `sendSplitMessages(channel, thread_ts, text)`: split into 3000-character
chunks at natural break points and post each. -/
def sendSplitRun (post : String → Except String Unit) (text : String) : List String :=
  postSeq post (chunkMessageTexts ((splitTextIntoChunks text.toList 3000).map List.asString))

/-- The oracles of one `handleNewAppMention` invocation.  `initialPost`
models `updateStatusUtil`'s initial `chat.postMessage` (with its retries
folded into one outcome); `send` models the `sendUnifiedMessage` posting
collaborator, which is not part of the sources (modelled from the spec's
outbound posting contract, section 6). -/
structure MentionOracles where
  initialPost : String → Except String String
  getThread : Except String (List Entry)
  llm : List Entry → Except String Decision
  registry : List (String × ToolSpec)
  send : String → Except String Unit

/-- The generic apology of src/lib/handle-app-mention.ts lines 132-136. -/
def apologyText : String :=
  "Sorry, I encountered an error while processing your request. Please try again."

/-- The `catch` block of `handleNewAppMention` (lines 129-142): post the
apology as a fresh status message and send it through the unified sender;
failures of this secondary path are swallowed.  Returns the texts actually
posted. -/
def apologyFlow (o : MentionOracles) : List String :=
  match o.initialPost apologyText with
  | .error _ => []
  | .ok _ =>
    match o.send apologyText with
    | .error _ => [apologyText]
    | .ok _ => [apologyText, apologyText]

/-- `handleNewAppMention` (src/lib/handle-app-mention.ts lines 69-143): skip
bot-authored events; inside a `try`, post the initial thinking message,
collect the transcript (thread history, or the bare mention text), call
`generateResponse` with the message-updating reporter, and send the result;
any throw — including a propagated `generateResponse` fault — lands in the
`catch`, which posts the generic apology.  The handler itself never throws.
Returns the texts posted. -/
def handleNewAppMentionRun (ev : MsgEvent) (o : MentionOracles) : List String :=
  if ev.bot_id.isSome || ev.bot_profile then []
  else
    match o.initialPost "is thinking..." with
    | .error _ => apologyFlow o
    | .ok _ =>
      let msgs : Except String (List Entry) :=
        match ev.thread_ts with
        | some _ => o.getThread
        | none => .ok [Entry.message "user" ev.text]
      match msgs with
      | .error _ => "is thinking..." :: apologyFlow o
      | .ok messages =>
        match (generateResponseRun o.llm o.registry (some (fun _ => .ok ())) messages).1 with
        | .error _ => "is thinking..." :: apologyFlow o
        | .ok result =>
          match o.send result with
          | .error _ => "is thinking..." :: apologyFlow o
          | .ok _ => ["is thinking...", result]

/-- The oracles of one `handleNewAssistantMessage` invocation. -/
structure AssistantOracles where
  setStatus : Reporter
  getThread : Except String (List Entry)
  llm : List Entry → Except String Decision
  registry : List (String × ToolSpec)
  canvasAvailable : Bool
  canvasCreate : String → String → Except String CreateBody
  post : String → Except String Unit

/-- `handleNewAssistantMessage` (src/lib/handle-messages.ts lines 41-175):
skip bot-authored or non-thread events, fire the thinking status, collect
the thread and call `generateResponse` — with NO surrounding `try/catch`, so
a fault of `getThread` or of the LLM call propagates out of the handler
(first component `.error`).  On success, long research results go through
the canvas-creation path (whose failures fall back to split messages inside
an inner `try/catch`), short results are posted directly (an awaited post
failure propagates), and long non-research results are split.  Returns the
propagation outcome and the texts posted. -/
def handleNewAssistantMessageRun (ev : MsgEvent) (o : AssistantOracles) :
    Except String Unit × List String :=
  if ev.bot_id.isSome || ev.bot_profile || ev.thread_ts.isNone then (.ok (), [])
  else
    match o.getThread with
    | .error e => (.error e, [])
    | .ok msgs =>
      match (generateResponseRun o.llm o.registry (some o.setStatus) msgs).1 with
      | .error e => (.error e, [])
      | .ok result =>
        let isLong := decide (3000 < result.length) &&
          (hasSub "research".toList result.toList || msgs.any entryHasResearch)
        if isLong then
          if o.canvasAvailable then
            let title := extractTitle result
            match o.canvasCreate title result with
            | .error _ => (.ok (), sendSplitRun o.post result)
            | .ok body =>
              if !body.ok then (.ok (), sendSplitRun o.post result)
              else
                match o.post (canvasReportMsg body.canvas_id title) with
                | .error _ => (.ok (), sendSplitRun o.post result)
                | .ok _ => (.ok (), [canvasReportMsg body.canvas_id title])
          else (.ok (), sendSplitRun o.post result)
        else
          if result.length ≤ 3000 then
            match o.post result with
            | .error e => (.error e, [])
            | .ok _ => (.ok (), [result])
          else (.ok (), sendSplitRun o.post result)

/-! ## Concrete fixtures used by counterexamples -/

/-- Oracle bundle for one `jinaSearch` invocation in which one subquery
succeeds with two results, both are selected, and the content fetch for the
first URL throws (rejects) while the second succeeds. -/
def jinaCxOracles : JinaOracles :=
  { genQueries := .ok ["q1"]
    searchFetch := fun _ => .ok (RawResp.mk true "OK" (.ok (SearchBody.mk 200 "ok"
      [SearchEntry.mk "https://a.com/x" "t1" "d1", SearchEntry.mk "https://b.com/y" "t2" "d2"])))
    selection := .ok [0, 1]
    contentFetch := fun u =>
      if u = "https://a.com/x" then .error "network failure"
      else .ok (RawResp.mk true "OK" (.ok (ContentBody.mk 200 "ok" (some "words")))) }

/-- An assistant-thread message event authored by a human user. -/
def assistantCxEvent : MsgEvent :=
  { bot_id := none, bot_profile := false, thread_ts := some "t1",
    ts := "t0", channel := "C1", text := "hi" }

/-- Oracles for one `handleNewAssistantMessage` invocation whose LLM call
faults with a transport failure. -/
def assistantCxOracles : AssistantOracles :=
  { setStatus := fun _ => .ok ()
    getThread := .ok [Entry.message "user" "hi"]
    llm := fun _ => .error "llm transport failure"
    registry := []
    canvasAvailable := false
    canvasCreate := fun _ _ => .error "unavailable"
    post := fun _ => .ok () }

/-- A nested-agent LLM that immediately issues a `makeEdits` deletion with a
fabricated section id (no prior `sectionLookup`), then finishes. -/
def agentCxLlm (tr : List AEntry) : Except String AgentDecision :=
  if tr.length ≤ 1 then
    .ok (.calls "t"
      [AgentCall.edits "C1" [EditChange.mk ChangeOp.delete (some "sec-fabricated") none]])
  else .ok (.final "done")

/-- A canvas store that accepts every edit. -/
def agentCxStore : AgentStore :=
  { lookupFetch := fun _ _ => .ok (RawResp.mk true "OK" (.ok (SlackBody.mk true "" [])))
    editFetch := fun _ _ => .ok (RawResp.mk true "OK" (.ok (SlackBody.mk true "" ()))) }

/-- A `files.info` response for a readable canvas. -/
def agentCxInfoFetch : Except String (RawResp (SlackBody FileInfo)) :=
  .ok (RawResp.mk true "OK" (.ok (SlackBody.mk true ""
    (FileInfo.mk "F1" "Doc" 0 "p" "u" false "U"))))

/-- The trace produced by `agentCxLlm` against `agentCxStore`. -/
def agentCxTrace : List (AgentCall × AgentCallOut) :=
  [(AgentCall.edits "C1" [EditChange.mk ChangeOp.delete (some "sec-fabricated") none],
    AgentCallOut.editsOut (.success (EditOut.mk true "C1"
      "https://slack.com/docs/C1" "slack://docs/C1")))]

theorem dedupeAux_sublist {α : Type} (getUrl : α → String) :
    ∀ (l : List α) (seen : List String), (dedupeAux getUrl seen l).Sublist l := by
  intro l
  induction l with
  | nil => intro seen; simp [dedupeAux]
  | cons a rest ih =>
    intro seen
    simp only [dedupeAux]
    cases h : urlKey (getUrl a) with
    | none => exact (ih seen).cons₂ a
    | some key =>
      by_cases hk : key ∈ seen
      · simp only [hk, if_true]
        exact (ih seen).cons a
      · simp only [hk, if_false]
        exact (ih (key :: seen)).cons₂ a

theorem dedupeAux_key_not_seen {α : Type} (getUrl : α → String) :
    ∀ (l : List α) (seen : List String) (b : α), b ∈ dedupeAux getUrl seen l →
      ∀ k, urlKey (getUrl b) = some k → k ∉ seen := by
  intro l
  induction l with
  | nil => intro seen b hb; simp [dedupeAux] at hb
  | cons a rest ih =>
    intro seen b hb k hk
    simp only [dedupeAux] at hb
    cases h : urlKey (getUrl a) with
    | none =>
      rw [h] at hb
      rcases List.mem_cons.mp hb with hba | hbr
      · subst hba; rw [h] at hk; cases hk
      · exact ih seen b hbr k hk
    | some key =>
      rw [h] at hb
      by_cases hks : key ∈ seen
      · simp only [hks, if_true] at hb
        exact ih seen b hb k hk
      · simp only [hks, if_false] at hb
        rcases List.mem_cons.mp hb with hba | hbr
        · subst hba
          rw [h] at hk
          injection hk with hkk
          subst hkk
          exact hks
        · intro hkseen
          exact ih (key :: seen) b hbr k hk (List.mem_cons_of_mem _ hkseen)

theorem dedupeAux_pairwise {α : Type} (getUrl : α → String) :
    ∀ (l : List α) (seen : List String),
      (dedupeAux getUrl seen l).Pairwise
        (fun a b => ∀ k, urlKey (getUrl a) = some k → urlKey (getUrl b) ≠ some k) := by
  intro l
  induction l with
  | nil => intro seen; simp [dedupeAux]
  | cons a rest ih =>
    intro seen
    simp only [dedupeAux]
    cases h : urlKey (getUrl a) with
    | none =>
      refine List.pairwise_cons.mpr ⟨?_, ih seen⟩
      intro b _ k hk
      rw [h] at hk; cases hk
    | some key =>
      by_cases hks : key ∈ seen
      · simp only [hks, if_true]; exact ih seen
      · simp only [hks, if_false]
        refine List.pairwise_cons.mpr ⟨?_, ih (key :: seen)⟩
        intro b hb k hk hbk
        rw [h] at hk
        have hkk : key = k := Option.some.inj hk
        refine dedupeAux_key_not_seen getUrl rest (key :: seen) b hb k hbk ?_
        rw [← hkk]
        exact List.mem_cons_self _ _

theorem dedupeAux_key_covered {α : Type} (getUrl : α → String) :
    ∀ (l : List α) (seen : List String) (a : α), a ∈ l →
      ∀ k, urlKey (getUrl a) = some k →
        k ∈ seen ∨ ∃ b ∈ dedupeAux getUrl seen l, urlKey (getUrl b) = some k := by
  intro l
  induction l with
  | nil => intro seen a ha; simp at ha
  | cons c rest ih =>
    intro seen a ha k hk
    simp only [dedupeAux]
    cases h : urlKey (getUrl c) with
    | none =>
      rcases List.mem_cons.mp ha with hac | har
      · subst hac; rw [h] at hk; cases hk
      · rcases ih seen a har k hk with hs | ⟨b, hb, hbk⟩
        · exact Or.inl hs
        · exact Or.inr ⟨b, List.mem_cons_of_mem _ hb, hbk⟩
    | some key =>
      by_cases hks : key ∈ seen
      · simp only [hks, if_true]
        rcases List.mem_cons.mp ha with hac | har
        · rw [hac, h] at hk
          have hkk : key = k := Option.some.inj hk
          exact Or.inl (hkk ▸ hks)
        · exact ih seen a har k hk
      · simp only [hks, if_false]
        rcases List.mem_cons.mp ha with hac | har
        · rw [hac] at hk
          exact Or.inr ⟨c, List.mem_cons_self _ _, hk⟩
        · rcases ih (key :: seen) a har k hk with hs | ⟨b, hb, hbk⟩
          · rcases List.mem_cons.mp hs with hkk | hkseen
            · exact Or.inr ⟨c, List.mem_cons_self _ _, h.trans (by rw [hkk])⟩
            · exact Or.inl hkseen
          · exact Or.inr ⟨b, List.mem_cons_of_mem _ hb, hbk⟩

theorem dedupeAux_keeps_first {α : Type} (getUrl : α → String) :
    ∀ (l₁ : List α) (seen : List String) (a : α) (l₂ : List α) (k : String),
      urlKey (getUrl a) = some k → k ∉ seen →
      (∀ b ∈ l₁, urlKey (getUrl b) ≠ some k) →
      a ∈ dedupeAux getUrl seen (l₁ ++ a :: l₂) := by
  intro l₁
  induction l₁ with
  | nil =>
    intro seen a l₂ k hk hks _
    simp only [List.nil_append, dedupeAux, hk]
    simp only [hks, if_false]
    exact List.mem_cons_self _ _
  | cons c rest ih =>
    intro seen a l₂ k hk hks hfirst
    simp only [List.cons_append, dedupeAux]
    cases h : urlKey (getUrl c) with
    | none =>
      exact List.mem_cons_of_mem _ (ih seen a l₂ k hk hks fun b hb =>
        hfirst b (List.mem_cons_of_mem _ hb))
    | some key =>
      by_cases hcs : key ∈ seen
      · simp only [hcs, if_true]
        exact ih seen a l₂ k hk hks fun b hb => hfirst b (List.mem_cons_of_mem _ hb)
      · simp only [hcs, if_false]
        refine List.mem_cons_of_mem _ (ih (key :: seen) a l₂ k hk ?_ fun b hb =>
          hfirst b (List.mem_cons_of_mem _ hb))
        intro hmem
        rcases List.mem_cons.mp hmem with hkk | hkseen
        · exact hfirst c (List.mem_cons_self _ _) (hkk ▸ h)
        · exact hks hkseen

/-- Unparseable URLs are kept (the fail-open `catch` branch of
`deduplicateByDomainAndUrl`). -/
theorem dedupeAux_keeps_unparseable {α : Type} (getUrl : α → String) :
    ∀ (l : List α) (seen : List String) (a : α), a ∈ l →
      urlKey (getUrl a) = none → a ∈ dedupeAux getUrl seen l := by
  intro l
  induction l with
  | nil => intro seen a ha; simp at ha
  | cons c rest ih =>
    intro seen a ha hk
    simp only [dedupeAux]
    cases h : urlKey (getUrl c) with
    | none =>
      rcases List.mem_cons.mp ha with hac | har
      · subst hac; exact List.mem_cons_self _ _
      · exact List.mem_cons_of_mem _ (ih seen a har hk)
    | some key =>
      by_cases hcs : key ∈ seen
      · simp only [hcs, if_true]
        rcases List.mem_cons.mp ha with hac | har
        · subst hac; rw [h] at hk; cases hk
        · exact ih seen a har hk
      · simp only [hcs, if_false]
        rcases List.mem_cons.mp ha with hac | har
        · subst hac; rw [h] at hk; cases hk
        · exact List.mem_cons_of_mem _ (ih (key :: seen) a har hk)

/-- Claim C8: for every list of URL-bearing result entries,
`deduplicateByDomainAndUrl` keys each entry by the normalized
`(hostname, pathname)` of its URL — ignoring query string and fragment —
keeps only the first-seen entry per key while preserving first-seen order,
keeps any entry whose URL fails to parse, and of the two entries
`https://a.com/x?ref=1` and `https://a.com/x?ref=2` exactly the first is
kept. -/
theorem claimC8_dedup_by_normalized_url :
    (∀ (α : Type) (getUrl : α → String) (items : List α),
      (deduplicateByDomainAndUrl getUrl items).Sublist items) ∧
    (∀ (α : Type) (getUrl : α → String) (items : List α),
      (deduplicateByDomainAndUrl getUrl items).Pairwise
        (fun a b => ∀ k, urlKey (getUrl a) = some k → urlKey (getUrl b) ≠ some k)) ∧
    (∀ (α : Type) (getUrl : α → String) (items : List α) (a : α),
      a ∈ items → urlKey (getUrl a) = none →
        a ∈ deduplicateByDomainAndUrl getUrl items) ∧
    (∀ (α : Type) (getUrl : α → String) (l₁ : List α) (a : α) (l₂ : List α) (k : String),
      urlKey (getUrl a) = some k → (∀ b ∈ l₁, urlKey (getUrl b) ≠ some k) →
        a ∈ deduplicateByDomainAndUrl getUrl (l₁ ++ a :: l₂)) ∧
    (∀ (α : Type) (getUrl : α → String) (items : List α) (a : α) (k : String),
      a ∈ items → urlKey (getUrl a) = some k →
        ∃ b ∈ deduplicateByDomainAndUrl getUrl items, urlKey (getUrl b) = some k) ∧
    deduplicateByDomainAndUrl SearchEntry.url
        [SearchEntry.mk "https://a.com/x?ref=1" "t1" "d1",
         SearchEntry.mk "https://a.com/x?ref=2" "t2" "d2"]
      = [SearchEntry.mk "https://a.com/x?ref=1" "t1" "d1"] := by
  refine ⟨?_, ?_, ?_, ?_, ?_, by decide⟩
  · intro α getUrl items
    exact dedupeAux_sublist getUrl items []
  · intro α getUrl items
    exact dedupeAux_pairwise getUrl items []
  · intro α getUrl items a ha hk
    exact dedupeAux_keeps_unparseable getUrl items [] a ha hk
  · intro α getUrl l₁ a l₂ k hk hfirst
    exact dedupeAux_keeps_first getUrl l₁ [] a l₂ k hk (by simp) hfirst
  · intro α getUrl items a k ha hk
    rcases dedupeAux_key_covered getUrl items [] a ha k hk with hs | h
    · simp at hs
    · exact h

/-- Witness for C8 at concrete inputs: an unparseable URL is kept, the first
entry with a fresh key is kept, and the key of the two example URLs is
represented in the output. -/
theorem claimC8_dedup_by_normalized_url_witness :
    SearchEntry.mk "not a url" "t" "d" ∈
        deduplicateByDomainAndUrl SearchEntry.url [SearchEntry.mk "not a url" "t" "d"] ∧
    SearchEntry.mk "https://a.com/x?ref=1" "t1" "d1" ∈
        deduplicateByDomainAndUrl SearchEntry.url
          ([] ++ SearchEntry.mk "https://a.com/x?ref=1" "t1" "d1" ::
            [SearchEntry.mk "https://a.com/x?ref=2" "t2" "d2"]) ∧
    ∃ b ∈ deduplicateByDomainAndUrl SearchEntry.url
        [SearchEntry.mk "https://a.com/x?ref=1" "t1" "d1",
         SearchEntry.mk "https://a.com/x?ref=2" "t2" "d2"],
      urlKey b.url = some "a.com/x" :=
  ⟨claimC8_dedup_by_normalized_url.2.2.1 SearchEntry SearchEntry.url
      [SearchEntry.mk "not a url" "t" "d"] (SearchEntry.mk "not a url" "t" "d")
      (by decide) (by decide),
   claimC8_dedup_by_normalized_url.2.2.2.1 SearchEntry SearchEntry.url []
      (SearchEntry.mk "https://a.com/x?ref=1" "t1" "d1")
      [SearchEntry.mk "https://a.com/x?ref=2" "t2" "d2"] "a.com/x"
      (by decide) (by simp),
   claimC8_dedup_by_normalized_url.2.2.2.2.1 SearchEntry SearchEntry.url
      [SearchEntry.mk "https://a.com/x?ref=1" "t1" "d1",
       SearchEntry.mk "https://a.com/x?ref=2" "t2" "d2"]
      (SearchEntry.mk "https://a.com/x?ref=1" "t1" "d1") "a.com/x"
      (by decide) (by decide)⟩

/-- Claim C10: `createCanvas` returns an error-shaped result and issues no
canvas-creation request whenever the ambient context lacks a `channelId`
(absent or empty, both JS-falsy) or the `channelId` begins with `D`; a
creation request is only ever issued for a context carrying a non-empty,
non-`D` channel id. -/
theorem claimC10_createCanvas_channel_guard :
    (∀ (env : Env) (ctx : CtxInfo) (markdown title : String) createF accessF,
      ctx.channelId = none ∨ ctx.channelId = some "" →
        createCanvasExecute env ctx markdown title createF accessF =
          (.error "No channel ID available in context", [])) ∧
    (∀ (env : Env) (ctx : CtxInfo) (markdown title : String) createF accessF cid,
      ctx.channelId = some cid → strStartsWith cid "D" = true →
        createCanvasExecute env ctx markdown title createF accessF =
          (.error "Cannot create a new canvas in an assistant thread. Please update the existing canvas instead or inform the user that you cannot create a new canvas in an assistant thread.", [])) ∧
    (∀ (env : Env) (ctx : CtxInfo) (markdown title : String) createF accessF,
      (createCanvasExecute env ctx markdown title createF accessF).2 ≠ [] →
        ∃ cid, ctx.channelId = some cid ∧ cid ≠ "" ∧ strStartsWith cid "D" = false) := by
  refine ⟨?_, ?_, ?_⟩
  · intro env ctx markdown title createF accessF h
    rcases h with h | h <;> simp [createCanvasExecute, h]
  · intro env ctx markdown title createF accessF cid hcid hD
    have hne : cid ≠ "" := by
      intro he
      rw [he] at hD
      simp [strStartsWith, List.isPrefixOf] at hD
    simp [createCanvasExecute, hcid, hne, hD]
  · intro env ctx markdown title createF accessF h
    cases hcid : ctx.channelId with
    | none => simp [createCanvasExecute, hcid] at h
    | some cid =>
      by_cases hne : cid = ""
      · simp [createCanvasExecute, hcid, hne] at h
      · by_cases hD : strStartsWith cid "D"
        · simp [createCanvasExecute, hcid, hne, hD] at h
        · exact ⟨cid, rfl, hne, by simpa using hD⟩

/-- Witness for C10 at concrete inputs: a missing channel id, an empty
channel id, a DM channel id, and a run against a non-DM channel whose
request log is nonempty. -/
theorem claimC10_createCanvas_channel_guard_witness :
    createCanvasExecute (Env.mk none none (some "tok")) (CtxInfo.mk none none)
        "md" "ti" (.error "boom") (.error "boom") =
      (.error "No channel ID available in context", []) ∧
    createCanvasExecute (Env.mk none none (some "tok")) (CtxInfo.mk (some "") none)
        "md" "ti" (.error "boom") (.error "boom") =
      (.error "No channel ID available in context", []) ∧
    createCanvasExecute (Env.mk none none (some "tok")) (CtxInfo.mk (some "D123") none)
        "md" "ti" (.error "boom") (.error "boom") =
      (.error "Cannot create a new canvas in an assistant thread. Please update the existing canvas instead or inform the user that you cannot create a new canvas in an assistant thread.", []) ∧
    ∃ cid, (CtxInfo.mk (some "C123") none).channelId = some cid ∧ cid ≠ "" ∧
      strStartsWith cid "D" = false :=
  ⟨claimC10_createCanvas_channel_guard.1 (Env.mk none none (some "tok"))
      (CtxInfo.mk none none) "md" "ti" (.error "boom") (.error "boom") (Or.inl rfl),
   claimC10_createCanvas_channel_guard.1 (Env.mk none none (some "tok"))
      (CtxInfo.mk (some "") none) "md" "ti" (.error "boom") (.error "boom") (Or.inr rfl),
   claimC10_createCanvas_channel_guard.2.1 (Env.mk none none (some "tok"))
      (CtxInfo.mk (some "D123") none) "md" "ti" (.error "boom") (.error "boom")
      "D123" rfl (by decide),
   claimC10_createCanvas_channel_guard.2.2 (Env.mk none none (some "tok"))
      (CtxInfo.mk (some "C123") none) "md" "ti" (.error "boom") (.error "boom")
      (by decide)⟩

theorem scanDown0_none {p : Nat → Bool} :
    ∀ {n : Nat}, scanDown0 p n = none → ∀ i, i ≤ n → p i = false := by
  intro n
  induction n with
  | zero =>
    intro h i hi
    interval_cases i
    simp only [scanDown0] at h
    by_cases hp : p 0
    · simp [hp] at h
    · simpa using hp
  | succ n ih =>
    intro h i hi
    simp only [scanDown0] at h
    by_cases hp : p (n + 1)
    · simp [hp] at h
    · rcases Nat.le_succ_iff_eq_or_le.mp hi with he | hle
      · simpa [he] using hp
      · exact ih (by simpa [hp] using h) i hle

theorem scanDown0_some {p : Nat → Bool} :
    ∀ {n i : Nat}, scanDown0 p n = some i → p i = true ∧ i ≤ n := by
  intro n
  induction n with
  | zero =>
    intro i h
    simp only [scanDown0] at h
    by_cases hp : p 0
    · simp [hp] at h
      exact ⟨h ▸ hp, h ▸ Nat.le_refl 0⟩
    · simp [hp] at h
  | succ n ih =>
    intro i h
    simp only [scanDown0] at h
    by_cases hp : p (n + 1)
    · simp [hp] at h
      exact ⟨h ▸ hp, h ▸ Nat.le_refl _⟩
    · rcases ih (by simpa [hp] using h) with ⟨h1, h2⟩
      exact ⟨h1, Nat.le_succ_of_le h2⟩

theorem scanDown0_exists (p : Nat → Bool) :
    ∀ {n j : Nat}, j ≤ n → p j = true → ∃ i, scanDown0 p n = some i ∧ j ≤ i := by
  intro n
  induction n with
  | zero =>
    intro j hj hp
    interval_cases j
    exact ⟨0, by simp [scanDown0, hp], Nat.le_refl 0⟩
  | succ n ih =>
    intro j hj hp
    by_cases hp1 : p (n + 1)
    · exact ⟨n + 1, by simp [scanDown0, hp1], hj⟩
    · rcases Nat.le_succ_iff_eq_or_le.mp hj with he | hle
      · rw [he] at hp; exact absurd hp (by simpa using hp1)
      · rcases ih hle hp with ⟨i, hi, hji⟩
        exact ⟨i, by simp [scanDown0, hp1, hi], hji⟩

theorem scanDown1_some {p : Nat → Bool} :
    ∀ {n i : Nat}, scanDown1 p n = some i → p i = true ∧ 1 ≤ i ∧ i ≤ n := by
  intro n
  induction n with
  | zero => intro i h; simp [scanDown1] at h
  | succ n ih =>
    intro i h
    simp only [scanDown1] at h
    by_cases hp : p (n + 1)
    · simp [hp] at h
      exact ⟨h ▸ hp, h ▸ Nat.succ_le_succ (Nat.zero_le n), h ▸ Nat.le_refl _⟩
    · rcases ih (by simpa [hp] using h) with ⟨h1, h2, h3⟩
      exact ⟨h1, h2, Nat.le_succ_of_le h3⟩

/-- If the last-space layer has a space at a positive index in range, the
block it cuts ends right after a space. -/
theorem fbpSpace_good {l : List Char} {limit : Nat}
    (h : ∃ j, 1 ≤ j ∧ j ≤ limit ∧ l[j]? = some ' ') :
    ∃ c ∈ breakChars, l[fbpSpace l limit - 1]? = some c := by
  obtain ⟨j, hj1, hjle, hjsp⟩ := h
  rcases scanDown0_exists (fun i => l[i]? == some ' ') hjle (by simp [hjsp]) with ⟨i, hi, hji⟩
  have hpi := (scanDown0_some hi).1
  have hisp : l[i]? = some ' ' := by simpa using hpi
  refine ⟨' ', by simp [breakChars], ?_⟩
  have hipos : (0 : Int) < (i : Int) := by exact_mod_cast Nat.lt_of_lt_of_le hj1 hji
  simp only [fbpSpace, jsLastIndexOfChar, hi, if_pos hipos, Int.toNat_ofNat]
  simpa using hisp

/-- If a space is available in range, the sentence layer cuts after sentence
punctuation or falls through to a space cut. -/
theorem fbpSentence_good {l : List Char} {limit : Nat}
    (h : ∃ j, 1 ≤ j ∧ j ≤ limit ∧ l[j]? = some ' ') :
    ∃ c ∈ breakChars, l[fbpSentence l limit - 1]? = some c := by
  cases hs : scanDown1 (sentenceEndAt l) limit with
  | none =>
    have := fbpSpace_good h
    simpa [fbpSentence, hs] using this
  | some i =>
    rcases scanDown1_some hs with ⟨hpi, _, _⟩
    simp only [sentenceEndAt] at hpi
    cases hg : l[i]? with
    | none => rw [hg] at hpi; cases hpi
    | some c =>
      rw [hg] at hpi
      simp only [Bool.and_eq_true, Bool.or_eq_true, beq_iff_eq] at hpi
      have hc : c = '.' ∨ c = '!' ∨ c = '?' := by
        rcases hpi.1 with (h1 | h1) | h1
        · exact Or.inl h1
        · exact Or.inr (Or.inl h1)
        · exact Or.inr (Or.inr h1)
      refine ⟨c, ?_, ?_⟩
      · rcases hc with h | h | h <;> simp [breakChars, h]
      · simpa [fbpSentence, hs] using hg

/-- If a space or newline is available at a positive index in range, the
newline layer (and its fallbacks) never cut mid-word. -/
theorem fbpNewline_good {l : List Char} {limit : Nat}
    (h : ∃ j, 1 ≤ j ∧ j ≤ limit ∧ (l[j]? = some ' ' ∨ l[j]? = some '\n')) :
    ∃ c ∈ breakChars, l[fbpNewline l limit - 1]? = some c := by
  obtain ⟨j, hj1, hjle, hjws⟩ := h
  rcases hjws with hsp | hnl
  · cases hn : scanDown0 (fun i => l[i]? == some '\n') limit with
    | none =>
      have := fbpSentence_good ⟨j, hj1, hjle, hsp⟩
      have hneg : ¬ (0 : Int) < -1 := by norm_num
      simpa [fbpNewline, jsLastIndexOfChar, hn, hneg] using this
    | some i =>
      by_cases hip : 0 < i
      · have hpi := (scanDown0_some hn).1
        have hinl : l[i]? = some '\n' := by simpa using hpi
        refine ⟨'\n', by simp [breakChars], ?_⟩
        have hipos : (0 : Int) < (i : Int) := by exact_mod_cast hip
        simp only [fbpNewline, jsLastIndexOfChar, hn, if_pos hipos, Int.toNat_ofNat]
        simpa using hinl
      · have hi0 : i = 0 := by omega
        have := fbpSentence_good ⟨j, hj1, hjle, hsp⟩
        have hneg : ¬ (0 : Int) < ((0 : Nat) : Int) := by norm_num
        simpa [fbpNewline, jsLastIndexOfChar, hn, hi0, hneg] using this
  · rcases scanDown0_exists (fun i => l[i]? == some '\n') hjle (by simp [hnl]) with ⟨i, hi, hji⟩
    have hpi := (scanDown0_some hi).1
    have hinl : l[i]? = some '\n' := by simpa using hpi
    refine ⟨'\n', by simp [breakChars], ?_⟩
    have hipos : (0 : Int) < (i : Int) := by exact_mod_cast Nat.lt_of_lt_of_le hj1 hji
    simp only [fbpNewline, jsLastIndexOfChar, hi, if_pos hipos, Int.toNat_ofNat]
    simpa using hinl

/-- Claim C4: for text longer than one block, whenever a qualifying
whitespace (space or newline) exists within the trailing window of width `W`
before the candidate boundary at `limit`, the block cut by `findBreakPoint`
ends at whitespace or sentence punctuation — never mid-word; consequently a
hard-limit mid-word cut happens only when no such whitespace exists. -/
theorem claimC4_word_boundary :
    ∀ (l : List Char) (limit W : Nat),
      0 < limit → limit < l.length →
      (∃ j, 1 ≤ j ∧ limit - W ≤ j ∧ j ≤ limit ∧
        (l[j]? = some ' ' ∨ l[j]? = some '\n')) →
      ∃ c ∈ breakChars, l[findBreakPoint l limit - 1]? = some c := by
  intro l limit W _hpos hlen hws
  obtain ⟨j, hj1, _, hjle, hjws⟩ := hws
  have hnle : ¬ l.length ≤ limit := Nat.not_le.mpr hlen
  cases hp : scanDown0 (fun i => l[i]? == some '\n' && l[i + 1]? == some '\n') limit with
  | none =>
    have := fbpNewline_good ⟨j, hj1, hjle, hjws⟩
    have hneg : ¬ (0 : Int) < -1 := by norm_num
    simpa [findBreakPoint, hnle, jsLastIndexOfPair, hp, hneg] using this
  | some ip =>
    by_cases hip : 0 < ip
    · have hpi := (scanDown0_some hp).1
      simp only [Bool.and_eq_true, beq_iff_eq] at hpi
      refine ⟨'\n', by simp [breakChars], ?_⟩
      have hipos : (0 : Int) < (ip : Int) := by exact_mod_cast hip
      simp only [findBreakPoint, if_neg hnle, jsLastIndexOfPair, hp,
        if_pos hipos, Int.toNat_ofNat]
      simpa using hpi.2
    · have hi0 : ip = 0 := by omega
      have := fbpNewline_good ⟨j, hj1, hjle, hjws⟩
      have hneg : ¬ (0 : Int) < ((0 : Nat) : Int) := by norm_num
      simpa [findBreakPoint, hnle, jsLastIndexOfPair, hp, hi0, hneg] using this

/-- Witness for C4 at a concrete input: in `ab cdef` with block limit 5 and
window 5, the space at index 2 qualifies and the cut ends at a break
character. -/
theorem claimC4_word_boundary_witness :
    0 < 5 ∧ 5 < "ab cdef".toList.length ∧
    (∃ j, 1 ≤ j ∧ 5 - 5 ≤ j ∧ j ≤ 5 ∧
      ("ab cdef".toList[j]? = some ' ' ∨ "ab cdef".toList[j]? = some '\n')) ∧
    (∃ c ∈ breakChars, "ab cdef".toList[findBreakPoint "ab cdef".toList 5 - 1]? = some c) :=
  ⟨by decide, by decide, ⟨2, by decide, by decide, by decide, Or.inl (by decide)⟩,
   claimC4_word_boundary "ab cdef".toList 5 5 (by decide) (by decide)
     ⟨2, by decide, by decide, by decide, Or.inl (by decide)⟩⟩

/-- Claim C1: for every tool in the registry and every failure of its
underlying work that reaches the tool boundary — missing credential, non-OK
HTTP response, non-200 structured response code, thrown exception (rejected
awaited call) — the tool's `execute` returns the error-shaped result carrying
the failure message, and never propagates the fault past its boundary (each
`execute` below is a total function into `ToolResult`). -/
theorem claimC1_tool_error_isolation :
    (∀ env url fetch, env.jinaApiKey = none →
      webScrapeExecute env url fetch =
        .error "JINA_API_KEY environment variable is not set") ∧
    (∀ env url (k e : String), env.jinaApiKey = some k →
      webScrapeExecute env url (.error e) = .error e) ∧
    (∀ env url (k : String) resp, env.jinaApiKey = some k → resp.ok = false →
      webScrapeExecute env url (.ok resp) =
        .error ("Failed to scrape webpage: " ++ resp.statusText)) ∧
    (∀ env url (k e : String) (resp : RawResp JinaBody), env.jinaApiKey = some k →
      resp.ok = true → resp.body = .error e →
      webScrapeExecute env url (.ok resp) = .error e) ∧
    (∀ env url (k : String) (resp : RawResp JinaBody) body, env.jinaApiKey = some k →
      resp.ok = true → resp.body = .ok body → body.code ≠ 200 →
      webScrapeExecute env url (.ok resp) =
        .error ("Failed to scrape webpage: " ++ body.status)) ∧
    (∀ env q d t o, env.jinaApiKey = none →
      jinaSearchExecute env q d t o =
        .error "JINA_API_KEY environment variable is not set") ∧
    (∀ env q d t (o : JinaOracles) (k e : String), env.jinaApiKey = some k →
      o.genQueries = .error e → jinaSearchExecute env q d t o = .error e) ∧
    (∀ env q d t (o : JinaOracles) (k : String) qs (e : String), env.jinaApiKey = some k →
      o.genQueries = .ok qs → 0 < (collectAllResults o.searchFetch qs).length →
      o.selection = .error e → jinaSearchExecute env q d t o = .error e) ∧
    (∀ env q d t (o : JinaOracles) (k : String) qs sel (e : String),
      env.jinaApiKey = some k → o.genQueries = .ok qs →
      0 < (collectAllResults o.searchFetch qs).length → o.selection = .ok sel →
      mapME (fetchContentFor (collectAllResults o.searchFetch qs) o.contentFetch)
        (sel.take 10) = .error e →
      jinaSearchExecute env q d t o = .error e) ∧
    (∀ (q e : String), quickSearchExecute q (.error e) = .error e) ∧
    (∀ env q gen, env.perplexityApiKey = none →
      deepResearchExecute env q gen =
        .error "PERPLEXITY_API_KEY environment variable is not set") ∧
    (∀ env (q k e : String), env.perplexityApiKey = some k →
      deepResearchExecute env q (.error e) = .error e) ∧
    (∀ env fetch, env.slackBotToken = none →
      listCanvasesExecute env fetch =
        .error "SLACK_BOT_TOKEN environment variable is not set") ∧
    (∀ env (k e : String), env.slackBotToken = some k →
      listCanvasesExecute env (.error e) = .error e) ∧
    (∀ env (k e : String) (resp : RawResp (SlackBody (List CanvasFile))),
      env.slackBotToken = some k → resp.body = .error e →
      listCanvasesExecute env (.ok resp) = .error e) ∧
    (∀ env (k : String) (resp : RawResp (SlackBody (List CanvasFile))) body,
      env.slackBotToken = some k → resp.body = .ok body → body.ok = false →
      listCanvasesExecute env (.ok resp) = .error ("Slack API error: " ++ body.error)) ∧
    (∀ env ctx (md ti : String) cF aF (cid : String), ctx.channelId = some cid →
      cid ≠ "" → strStartsWith cid "D" = false → env.slackBotToken = none →
      (createCanvasExecute env ctx md ti cF aF).1 =
        .error "SLACK_BOT_TOKEN environment variable is not set") ∧
    (∀ env ctx (md ti : String) aF (cid k e : String), ctx.channelId = some cid →
      cid ≠ "" → strStartsWith cid "D" = false → env.slackBotToken = some k →
      (createCanvasExecute env ctx md ti (.error e) aF).1 = .error e) ∧
    (∀ env ctx (md ti : String) (resp : RawResp CreateBody) body aF (cid k : String),
      ctx.channelId = some cid → cid ≠ "" → strStartsWith cid "D" = false →
      env.slackBotToken = some k → resp.body = .ok body → body.ok = false →
      body.error = "channel_canvas_already_exists" →
      (createCanvasExecute env ctx md ti (.ok resp) aF).1 =
        .error "A canvas with this title already exists in the channel. Please use a different title or use the updateCanvas tool to modify the existing canvas.") ∧
    (∀ env ctx (md ti : String) (resp : RawResp CreateBody) body aF (cid k : String),
      ctx.channelId = some cid → cid ≠ "" → strStartsWith cid "D" = false →
      env.slackBotToken = some k → resp.body = .ok body → body.ok = false →
      body.error ≠ "channel_canvas_already_exists" →
      (createCanvasExecute env ctx md ti (.ok resp) aF).1 =
        .error ("Slack API error: " ++ body.error)) ∧
    (∀ env iF cF, env.slackBotToken = none →
      canvasReadExecute env iF cF =
        .error "SLACK_BOT_TOKEN environment variable is not set") ∧
    (∀ env (k e : String) cF, env.slackBotToken = some k →
      canvasReadExecute env (.error e) cF = .error e) ∧
    (∀ env (k : String) (resp : RawResp (SlackBody FileInfo)) body cF,
      env.slackBotToken = some k → resp.body = .ok body → body.ok = false →
      canvasReadExecute env (.ok resp) cF = .error ("Slack API error: " ++ body.error)) ∧
    (∀ env (k : String) (resp : RawResp (SlackBody FileInfo)) body cF cr,
      env.slackBotToken = some k → resp.body = .ok body → body.ok = true →
      cF body.payload.url_private = .ok cr → cr.ok = false →
      canvasReadExecute env (.ok resp) cF =
        .error ("Failed to fetch canvas content: " ++ cr.statusText)) ∧
    (∀ env (cid rc : String) iF cF llm store (e : String),
      canvasReadExecute env iF cF = .error e →
      canvasEditorAgentExecute env cid rc iF cF llm store =
        .error ("Failed to read canvas: " ++ e)) ∧
    (∀ env (cid rc : String) iF cF llm store doc (e : String),
      canvasReadExecute env iF cF = .success doc →
      llm [AEntry.userMsg (agentPrompt cid doc.content rc)] = .error e →
      canvasEditorAgentExecute env cid rc iF cF llm store = .error e) := by
  refine ⟨?_, ?_, ?_, ?_, ?_, ?_, ?_, ?_, ?_, ?_, ?_, ?_, ?_, ?_, ?_, ?_, ?_, ?_,
    ?_, ?_, ?_, ?_, ?_, ?_, ?_, ?_⟩
  · intro env url fetch h
    simp [webScrapeExecute, webScrapeRun, requireKey, h, toToolResult, Bind.bind, Except.bind]
  · intro env url k e h
    simp [webScrapeExecute, webScrapeRun, requireKey, h, toToolResult, Bind.bind, Except.bind]
  · intro env url k resp h hok
    simp [webScrapeExecute, webScrapeRun, requireKey, h, hok, toToolResult, Bind.bind, Except.bind]
  · intro env url k e resp h hok hb
    simp [webScrapeExecute, webScrapeRun, requireKey, h, hok, hb, toToolResult, Bind.bind, Except.bind]
  · intro env url k resp body h hok hb hcode
    simp [webScrapeExecute, webScrapeRun, requireKey, h, hok, hb, hcode, toToolResult, Bind.bind, Except.bind]
  · intro env q d t o h
    simp [jinaSearchExecute, jinaSearchRun, requireKey, h, toToolResult, Bind.bind, Except.bind]
  · intro env q d t o k e h hq
    simp [jinaSearchExecute, jinaSearchRun, requireKey, h, hq, toToolResult, Bind.bind, Except.bind]
  · intro env q d t o k qs e h hq hlen hsel
    simp [jinaSearchExecute, jinaSearchRun, requireKey, h, hq, hlen, hsel, toToolResult, Bind.bind, Except.bind]
  · intro env q d t o k qs sel e h hq hlen hsel hmap
    simp [jinaSearchExecute, jinaSearchRun, requireKey, h, hq, hlen, hsel, hmap, toToolResult, Bind.bind, Except.bind]
  · intro q e
    simp [quickSearchExecute, toToolResult, Bind.bind, Except.bind]
  · intro env q gen h
    simp [deepResearchExecute, deepResearchRun, requireKey, h, toToolResult, Bind.bind, Except.bind]
  · intro env q k e h
    simp [deepResearchExecute, deepResearchRun, requireKey, h, toToolResult, Bind.bind, Except.bind]
  · intro env fetch h
    simp [listCanvasesExecute, listCanvasesRun, requireKey, h, toToolResult, Bind.bind, Except.bind]
  · intro env k e h
    simp [listCanvasesExecute, listCanvasesRun, requireKey, h, toToolResult, Bind.bind, Except.bind]
  · intro env k e resp h hb
    simp [listCanvasesExecute, listCanvasesRun, requireKey, h, hb, toToolResult, Bind.bind, Except.bind]
  · intro env k resp body h hb hok
    simp [listCanvasesExecute, listCanvasesRun, requireKey, h, hb, hok, toToolResult, Bind.bind, Except.bind]
  · intro env ctx md ti cF aF cid hcid hne hD h
    simp [createCanvasExecute, hcid, hne, hD, h]
  · intro env ctx md ti aF cid k e hcid hne hD h
    simp [createCanvasExecute, hcid, hne, hD, h]
  · intro env ctx md ti resp body aF cid k hcid hne hD h hb hok herr
    simp [createCanvasExecute, hcid, hne, hD, h, hb, hok, herr]
  · intro env ctx md ti resp body aF cid k hcid hne hD h hb hok herr
    simp [createCanvasExecute, hcid, hne, hD, h, hb, hok, herr]
  · intro env iF cF h
    simp [canvasReadExecute, canvasReadRun, requireKey, h, toToolResult, Bind.bind, Except.bind]
  · intro env k e cF h
    simp [canvasReadExecute, canvasReadRun, requireKey, h, toToolResult, Bind.bind, Except.bind]
  · intro env k resp body cF h hb hok
    simp [canvasReadExecute, canvasReadRun, requireKey, h, hb, hok, toToolResult, Bind.bind, Except.bind]
  · intro env k resp body cF cr h hb hok hcf hcr
    simp [canvasReadExecute, canvasReadRun, requireKey, h, hb, hok, hcf, hcr, toToolResult, Bind.bind, Except.bind]
  · intro env cid rc iF cF llm store e h
    simp [canvasEditorAgentExecute, h]
  · intro env cid rc iF cF llm store doc e h hllm
    simp [canvasEditorAgentExecute, h, runAgentSession, hllm]

/-- Witness for C1: every failure-mode implication instantiated at concrete
environments and oracles. -/
theorem claimC1_tool_error_isolation_witness :
    webScrapeExecute (Env.mk none none none) "u" (.error "x") =
      .error "JINA_API_KEY environment variable is not set" ∧
    webScrapeExecute (Env.mk (some "k") none none) "u" (.error "boom") = .error "boom" ∧
    webScrapeExecute (Env.mk (some "k") none none) "u"
        (.ok (RawResp.mk false "Not Found" (.error "nojson"))) =
      .error ("Failed to scrape webpage: " ++ "Not Found") ∧
    webScrapeExecute (Env.mk (some "k") none none) "u"
        (.ok (RawResp.mk true "OK" (.error "parsefail"))) = .error "parsefail" ∧
    webScrapeExecute (Env.mk (some "k") none none) "u"
        (.ok (RawResp.mk true "OK" (.ok (JinaBody.mk 500 "ERR" (JinaData.mk "" "" "" none none))))) =
      .error ("Failed to scrape webpage: " ++ "ERR") ∧
    jinaSearchExecute (Env.mk none none none) "q" "d" "t"
        (JinaOracles.mk (.error "g") (fun _ => .error "s") (.error "sel") (fun _ => .error "c")) =
      .error "JINA_API_KEY environment variable is not set" ∧
    jinaSearchExecute (Env.mk (some "k") none none) "q" "d" "t"
        (JinaOracles.mk (.error "g") (fun _ => .error "s") (.error "sel") (fun _ => .error "c")) =
      .error "g" ∧
    jinaSearchExecute (Env.mk (some "k") none none) "q" "d" "t"
        (JinaOracles.mk (.ok ["q1"])
          (fun _ => .ok (RawResp.mk true "OK" (.ok (SearchBody.mk 200 "ok"
            [SearchEntry.mk "https://a.com/x" "t" "d"]))))
          (.error "selfail") (fun _ => .error "c")) =
      .error "selfail" ∧
    jinaSearchExecute (Env.mk (some "k") none none) "q" "d" "t"
        (JinaOracles.mk (.ok ["q1"])
          (fun _ => .ok (RawResp.mk true "OK" (.ok (SearchBody.mk 200 "ok"
            [SearchEntry.mk "https://a.com/x" "t" "d"]))))
          (.ok [0]) (fun _ => .error "cfail")) =
      .error "cfail" ∧
    quickSearchExecute "q" (.error "boom") = .error "boom" ∧
    deepResearchExecute (Env.mk none none none) "q" (.error "x") =
      .error "PERPLEXITY_API_KEY environment variable is not set" ∧
    deepResearchExecute (Env.mk none (some "k") none) "q" (.error "boom") = .error "boom" ∧
    listCanvasesExecute (Env.mk none none none) (.error "x") =
      .error "SLACK_BOT_TOKEN environment variable is not set" ∧
    listCanvasesExecute (Env.mk none none (some "k")) (.error "boom") = .error "boom" ∧
    listCanvasesExecute (Env.mk none none (some "k"))
        (.ok (RawResp.mk true "OK" (.error "pf"))) = .error "pf" ∧
    listCanvasesExecute (Env.mk none none (some "k"))
        (.ok (RawResp.mk true "OK" (.ok (SlackBody.mk false "invalid_auth" [])))) =
      .error ("Slack API error: " ++ "invalid_auth") ∧
    (createCanvasExecute (Env.mk none none none) (CtxInfo.mk (some "C1") none) "md" "ti"
        (.error "x") (.error "y")).1 =
      .error "SLACK_BOT_TOKEN environment variable is not set" ∧
    (createCanvasExecute (Env.mk none none (some "k")) (CtxInfo.mk (some "C1") none) "md" "ti"
        (.error "boom") (.error "y")).1 = .error "boom" ∧
    (createCanvasExecute (Env.mk none none (some "k")) (CtxInfo.mk (some "C1") none) "md" "ti"
        (.ok (RawResp.mk true "OK" (.ok (CreateBody.mk false "channel_canvas_already_exists" ""))))
        (.error "y")).1 =
      .error "A canvas with this title already exists in the channel. Please use a different title or use the updateCanvas tool to modify the existing canvas." ∧
    (createCanvasExecute (Env.mk none none (some "k")) (CtxInfo.mk (some "C1") none) "md" "ti"
        (.ok (RawResp.mk true "OK" (.ok (CreateBody.mk false "restricted_action" ""))))
        (.error "y")).1 =
      .error ("Slack API error: " ++ "restricted_action") ∧
    canvasReadExecute (Env.mk none none none) (.error "x") (fun _ => .error "y") =
      .error "SLACK_BOT_TOKEN environment variable is not set" ∧
    canvasReadExecute (Env.mk none none (some "k")) (.error "boom") (fun _ => .error "y") =
      .error "boom" ∧
    canvasReadExecute (Env.mk none none (some "k"))
        (.ok (RawResp.mk true "OK" (.ok (SlackBody.mk false "file_not_found"
          (FileInfo.mk "" "" 0 "" "" false ""))))) (fun _ => .error "y") =
      .error ("Slack API error: " ++ "file_not_found") ∧
    canvasReadExecute (Env.mk none none (some "k"))
        (.ok (RawResp.mk true "OK" (.ok (SlackBody.mk true ""
          (FileInfo.mk "F1" "T" 0 "p" "u" false "U")))))
        (fun _ => .ok (TextResp.mk false "Forbidden" "")) =
      .error ("Failed to fetch canvas content: " ++ "Forbidden") ∧
    canvasEditorAgentExecute (Env.mk none none none) "C1" "rc" (.error "x")
        (fun _ => .error "y") (fun _ => .error "z")
        (AgentStore.mk (fun _ _ => .error "lf") (fun _ _ => .error "ef")) =
      .error ("Failed to read canvas: " ++ "SLACK_BOT_TOKEN environment variable is not set") ∧
    canvasEditorAgentExecute (Env.mk none none (some "k")) "C1" "rc"
        (.ok (RawResp.mk true "OK" (.ok (SlackBody.mk true ""
          (FileInfo.mk "F1" "T" 0 "p" "u" false "U")))))
        (fun _ => .ok (TextResp.mk true "OK" "content"))
        (fun _ => .error "llmboom")
        (AgentStore.mk (fun _ _ => .error "lf") (fun _ _ => .error "ef")) =
      .error "llmboom" := by
  obtain ⟨w1, w2, w3, w4, w5, j1, j2, j3, j4, q1, d1, d2, l1, l2, l3, l4,
    c1, c2, c3, c4, r1, r2, r3, r4, a1, a2⟩ := claimC1_tool_error_isolation
  refine ⟨w1 _ _ _ rfl, w2 _ _ "k" _ rfl, w3 _ _ "k" _ rfl rfl,
    w4 _ _ "k" _ _ rfl rfl rfl, w5 _ _ "k" _ _ rfl rfl rfl (by decide),
    j1 _ _ _ _ _ rfl, j2 _ _ _ _ _ "k" _ rfl rfl,
    j3 _ _ _ _ _ "k" ["q1"] _ rfl rfl (by decide) rfl,
    j4 _ _ _ _ _ "k" ["q1"] [0] _ rfl rfl (by decide) rfl rfl,
    q1 _ _, d1 _ _ _ rfl, d2 _ _ "k" _ rfl, l1 _ _ rfl, l2 _ "k" _ rfl,
    l3 _ "k" _ _ rfl rfl, l4 _ "k" _ _ rfl rfl rfl,
    c1 _ _ _ _ _ _ "C1" rfl (by decide) (by decide) rfl,
    c2 _ _ _ _ _ "C1" "k" _ rfl (by decide) (by decide) rfl,
    c3 _ _ _ _ _ _ _ "C1" "k" rfl (by decide) (by decide) rfl rfl rfl rfl,
    c4 _ _ _ _ _ _ _ "C1" "k" rfl (by decide) (by decide) rfl rfl rfl (by decide),
    r1 _ _ _ rfl, r2 _ "k" _ _ rfl, r3 _ "k" _ _ _ rfl rfl rfl,
    r4 _ "k" _ _ _ _ rfl rfl rfl rfl rfl,
    a1 _ _ _ _ _ _ _ _ rfl, a2 _ _ _ _ _ _ _
      (CanvasDoc.mk "F1" "T" 0 "p" "content" false "U") _ rfl rfl⟩

theorem runSession_steps_le {llm : List Entry → Except String Decision}
    {ts : List (String × ToolSpec)} {finalizeNote : List String} :
    ∀ {fuel : Nat} {tr : List Entry} {last t : String} {n : Nat} {log : List String},
      runSession llm ts finalizeNote fuel tr last = .ok (t, n, log) → n ≤ fuel := by
  intro fuel
  induction fuel with
  | zero =>
    intro tr last t n log h
    simp only [runSession] at h
    injection h with h
    injection h with _ h
    injection h with h _
    omega
  | succ fuel ih =>
    intro tr last t n log h
    simp only [runSession] at h
    cases hd : llm tr with
    | error e => rw [hd] at h; cases h
    | ok d =>
      rw [hd] at h
      cases d with
      | final t0 =>
        injection h with h
        injection h with _ h
        injection h with h _
        omega
      | calls t0 cs =>
        cases hr : runSession llm ts finalizeNote fuel
            (tr ++ (cs.map (fun c => (c, execCall ts c))).map
              (fun co => Entry.toolResult co.1 co.2.result)) t0 with
        | error e => simp only [hr] at h; cases h
        | ok out =>
          obtain ⟨t2, n2, log2⟩ := out
          simp only [hr, Except.ok.injEq, Prod.mk.injEq] at h
          obtain ⟨-, hn, -⟩ := h
          have := ih hr
          omega

theorem runSession_adversarial {llm : List Entry → Except String Decision}
    {ts : List (String × ToolSpec)} {finalizeNote : List String}
    (hadv : ∀ tr, ∃ t cs, cs ≠ [] ∧ llm tr = .ok (.calls t cs)) :
    ∀ (fuel : Nat) (tr : List Entry) (last : String),
      ∃ t log, runSession llm ts finalizeNote fuel tr last = .ok (t, fuel, log) := by
  intro fuel
  induction fuel with
  | zero => intro tr last; exact ⟨last, [], rfl⟩
  | succ fuel ih =>
    intro tr last
    obtain ⟨t, cs, _, hllm⟩ := hadv tr
    obtain ⟨t2, log, hrec⟩ := ih
      (tr ++ (cs.map (fun c => (c, execCall ts c))).map
        (fun co => Entry.toolResult co.1 co.2.result)) t
    refine ⟨t2, ?_, ?_⟩
    · exact ((cs.map (fun c => (c, execCall ts c))).map (fun co => co.2.statuses)).flatten ++
        (if cs.isEmpty then [] else finalizeNote) ++ log
    · simp only [runSession, hllm, hrec]

theorem runAgentSession_steps_le {llm : List AEntry → Except String AgentDecision}
    {env : Env} {store : AgentStore} :
    ∀ {fuel : Nat} {tr : List AEntry} {last t : String} {n : Nat}
      {trace : List (AgentCall × AgentCallOut)},
      runAgentSession llm env store fuel tr last = .ok (t, n, trace) → n ≤ fuel := by
  intro fuel
  induction fuel with
  | zero =>
    intro tr last t n trace h
    simp only [runAgentSession] at h
    injection h with h
    injection h with _ h
    injection h with h _
    omega
  | succ fuel ih =>
    intro tr last t n trace h
    simp only [runAgentSession] at h
    cases hd : llm tr with
    | error e => rw [hd] at h; cases h
    | ok d =>
      rw [hd] at h
      cases d with
      | final t0 =>
        injection h with h
        injection h with _ h
        injection h with h _
        omega
      | calls t0 cs =>
        cases hr : runAgentSession llm env store fuel
            (tr ++ (cs.map (fun c => (c, execAgentCall env store c))).map
              (fun co => AEntry.toolRec co.1 co.2)) t0 with
        | error e => simp only [hr] at h; cases h
        | ok out =>
          obtain ⟨t2, n2, trace2⟩ := out
          simp only [hr, Except.ok.injEq, Prod.mk.injEq] at h
          obtain ⟨-, hn, -⟩ := h
          have := ih hr
          omega

theorem runAgentSession_adversarial {llm : List AEntry → Except String AgentDecision}
    {env : Env} {store : AgentStore}
    (hadv : ∀ tr, ∃ t cs, cs ≠ [] ∧ llm tr = .ok (.calls t cs)) :
    ∀ (fuel : Nat) (tr : List AEntry) (last : String),
      ∃ t trace, runAgentSession llm env store fuel tr last = .ok (t, fuel, trace) := by
  intro fuel
  induction fuel with
  | zero => intro tr last; exact ⟨last, [], rfl⟩
  | succ fuel ih =>
    intro tr last
    obtain ⟨t, cs, _, hllm⟩ := hadv tr
    obtain ⟨t2, trace, hrec⟩ := ih
      (tr ++ (cs.map (fun c => (c, execAgentCall env store c))).map
        (fun co => AEntry.toolRec co.1 co.2)) t
    refine ⟨t2, (cs.map (fun c => (c, execAgentCall env store c))) ++ trace, ?_⟩
    simp only [runAgentSession, hllm, hrec]

/-- Claim C2: both orchestration loops terminate within their step budgets —
the outer `generateResponse` session is bounded by `maxSteps = 10` and the
nested canvas-editing session by `maxSteps = 8` — and even against an LLM
collaborator that requests another tool call at every step, the loop
consumes exactly its budget and deterministically returns the last available
text (the outer orchestrator then returns it Slack-formatted). -/
theorem claimC2_step_budget_termination :
    (∀ llm ts fin (tr : List Entry) (last t : String) (n : Nat) (log : List String),
      runSession llm ts fin 10 tr last = .ok (t, n, log) → n ≤ 10) ∧
    (∀ llm ts fin (tr : List Entry) (last : String),
      (∀ tr', ∃ t cs, cs ≠ [] ∧ llm tr' = .ok (.calls t cs)) →
      ∃ t log, runSession llm ts fin 10 tr last = .ok (t, 10, log)) ∧
    (∀ llm env store (tr : List AEntry) (last t : String) (n : Nat) trace,
      runAgentSession llm env store 8 tr last = .ok (t, n, trace) → n ≤ 8) ∧
    (∀ llm env store (tr : List AEntry) (last : String),
      (∀ tr', ∃ t cs, cs ≠ [] ∧ llm tr' = .ok (.calls t cs)) →
      ∃ t trace, runAgentSession llm env store 8 tr last = .ok (t, 8, trace)) ∧
    (∀ llm registry reporter messages,
      (∀ tr', ∃ t cs, cs ≠ [] ∧ llm tr' = .ok (.calls t cs)) →
      ∃ t, (generateResponseRun llm registry reporter messages).1 = .ok (formatSlack t)) ∧
    (∀ env (cid rc : String) iF cF llm store doc,
      canvasReadExecute env iF cF = .success doc →
      (∀ tr', ∃ t cs, cs ≠ [] ∧ llm tr' = .ok (.calls t cs)) →
      ∃ out, canvasEditorAgentExecute env cid rc iF cF llm store = .success out) := by
  refine ⟨?_, ?_, ?_, ?_, ?_, ?_⟩
  · intro llm ts fin tr last t n log h
    exact runSession_steps_le h
  · intro llm ts fin tr last hadv
    exact runSession_adversarial hadv 10 tr last
  · intro llm env store tr last t n trace h
    exact runAgentSession_steps_le h
  · intro llm env store tr last hadv
    exact runAgentSession_adversarial hadv 8 tr last
  · intro llm registry reporter messages hadv
    obtain ⟨t, log, h⟩ := @runSession_adversarial llm (wrapTools reporter.isSome registry)
      (if reporter.isSome then ["is finalizing response..."] else [])
      hadv 10 messages ""
    exact ⟨t, by simp [generateResponseRun, h]⟩
  · intro env cid rc iF cF llm store doc hread hadv
    obtain ⟨t, trace, h⟩ := @runAgentSession_adversarial llm env store hadv 8
      [AEntry.userMsg (agentPrompt cid doc.content rc)] ""
    exact ⟨{ text := t, trace := trace }, by simp [canvasEditorAgentExecute, hread, h]⟩

/-- Witness for C2: a finishing LLM consumes one of the ten steps; an
always-calling LLM exhausts exactly the budget in both loops and
`generateResponse` still returns a formatted text. -/
theorem claimC2_step_budget_termination_witness :
    (runSession (fun _ => .ok (.final "x")) [] [] 10 [] "" = .ok ("x", 1, []) → (1 : Nat) ≤ 10) ∧
    (∃ t log, runSession (fun _ => .ok (.calls "t" [ToolCall.mk "webScrape" "a"])) [] [] 10 [] "" =
      .ok (t, 10, log)) ∧
    (∃ t trace, runAgentSession (fun _ => .ok (.calls "t" [AgentCall.lookup "C1" "q"]))
      (Env.mk none none none)
      (AgentStore.mk (fun _ _ => .error "lf") (fun _ _ => .error "ef")) 8 [] "" =
      .ok (t, 8, trace)) ∧
    (∃ t, (generateResponseRun (fun _ => .ok (.calls "t" [ToolCall.mk "webScrape" "a"])) []
      none []).1 = .ok (formatSlack t)) := by
  obtain ⟨b1, a1, _b2, a2, g1, _⟩ := claimC2_step_budget_termination
  refine ⟨fun h => b1 _ _ _ _ _ _ _ _ h, ?_, ?_, ?_⟩
  · exact a1 _ _ _ _ _ (fun tr' => ⟨"t", [ToolCall.mk "webScrape" "a"], by simp, rfl⟩)
  · exact a2 _ _ _ _ _ (fun tr' => ⟨"t", [AgentCall.lookup "C1" "q"], by simp, rfl⟩)
  · exact g1 _ _ _ _ (fun tr' => ⟨"t", [ToolCall.mk "webScrape" "a"], by simp, rfl⟩)

theorem foldl_push_eq_map {α β : Type} (f : α → β) :
    ∀ (l : List α) (acc : List β), l.foldl (fun a p => a ++ [f p]) acc = acc ++ l.map f := by
  intro l
  induction l with
  | nil => intro acc; simp
  | cons a rest ih => intro acc; simp [ih]

theorem wrapTools_false_eq (ts : List (String × ToolSpec)) : wrapTools false ts = ts := by
  have h := foldl_push_eq_map (fun p : String × ToolSpec => (p.1, p.2)) ts []
  simp only [wrapTools, Bool.false_eq_true, if_false]
  simpa using h

theorem wrapTools_true_eq (ts : List (String × ToolSpec)) :
    wrapTools true ts = ts.map (fun p => (p.1, wrapSpec p.1 p.2)) := by
  have h := foldl_push_eq_map (fun p : String × ToolSpec => (p.1, wrapSpec p.1 p.2)) ts []
  simp only [wrapTools, if_true]
  simpa using h

/-- Claim C7: per-invocation wrapping never mutates the shared tool map —
with no reporter the registry is reused as-is; wrapping preserves every
entry's name, description and parameter schema; and the wrapped entry is a
new composition whose execute delegates to the original execute and returns
its result unchanged. -/
theorem claimC7_wrapping_no_mutation :
    (∀ ts, wrapTools false ts = ts) ∧
    (∀ (hasR : Bool) ts, (wrapTools hasR ts).map Prod.fst = ts.map Prod.fst) ∧
    (∀ ts (name : String) (t : ToolSpec), (name, t) ∈ ts →
      (name, wrapSpec name t) ∈ wrapTools true ts ∧
      (wrapSpec name t).descr = t.descr ∧
      (wrapSpec name t).params = t.params ∧
      ∀ c, ((wrapSpec name t).exec c).result = (t.exec c).result) := by
  refine ⟨wrapTools_false_eq, ?_, ?_⟩
  · intro hasR ts
    cases hasR with
    | false => rw [wrapTools_false_eq]
    | true => simp [wrapTools_true_eq]
  · intro ts name t hmem
    refine ⟨?_, rfl, rfl, fun c => rfl⟩
    rw [wrapTools_true_eq]
    exact List.mem_map_of_mem (fun p => (p.1, wrapSpec p.1 p.2)) hmem

/-- Witness for C7 at a concrete one-entry registry. -/
theorem claimC7_wrapping_no_mutation_witness :
    ("w", wrapSpec "w" (ToolSpec.mk "d" "p" (fun _ => ExecOut.mk "r" []))) ∈
      wrapTools true [("w", ToolSpec.mk "d" "p" (fun _ => ExecOut.mk "r" []))] ∧
    (wrapSpec "w" (ToolSpec.mk "d" "p" (fun _ => ExecOut.mk "r" []))).descr = "d" ∧
    ∀ c, ((wrapSpec "w" (ToolSpec.mk "d" "p" (fun _ => ExecOut.mk "r" []))).exec c).result =
      ((ToolSpec.mk "d" "p" (fun _ => ExecOut.mk "r" [])).exec c).result := by
  have h := claimC7_wrapping_no_mutation.2.2
    [("w", ToolSpec.mk "d" "p" (fun _ => ExecOut.mk "r" []))] "w"
    (ToolSpec.mk "d" "p" (fun _ => ExecOut.mk "r" [])) (by simp)
  exact ⟨h.1, h.2.1, h.2.2.2⟩

theorem execCall_wrap_result (ts : List (String × ToolSpec)) (c : ToolCall) :
    (execCall (wrapTools true ts) c).result = (execCall ts c).result := by
  simp only [execCall, lookupTool, wrapTools_true_eq, List.find?_map]
  have hcomp : ((fun (p : String × ToolSpec) => p.1 == c.name) ∘
      (fun (p : String × ToolSpec) => (p.1, wrapSpec p.1 p.2))) =
      fun (p : String × ToolSpec) => p.1 == c.name := rfl
  rw [hcomp]
  cases ts.find? (fun p => p.1 == c.name) with
  | none => rfl
  | some p => rfl

theorem session_result_eq (llm : List Entry → Except String Decision)
    (ts : List (String × ToolSpec)) (fin₁ fin₂ : List String) :
    ∀ (fuel : Nat) (tr : List Entry) (last : String),
      (runSession llm (wrapTools true ts) fin₁ fuel tr last).map (fun x => (x.1, x.2.1)) =
      (runSession llm ts fin₂ fuel tr last).map (fun x => (x.1, x.2.1)) := by
  intro fuel
  induction fuel with
  | zero => intro tr last; rfl
  | succ fuel ih =>
    intro tr last
    simp only [runSession]
    cases hd : llm tr with
    | error e => simp only [hd]
    | ok d =>
      cases d with
      | final t => simp only [hd]
      | calls t cs =>
        simp only [hd]
        have htr : (cs.map (fun c => (c, execCall (wrapTools true ts) c))).map
              (fun co => Entry.toolResult co.1 co.2.result) =
            (cs.map (fun c => (c, execCall ts c))).map
              (fun co => Entry.toolResult co.1 co.2.result) := by
          simp only [List.map_map]
          apply List.map_congr_left
          intro c _
          simp [Function.comp, execCall_wrap_result]
        rw [htr]
        have hih := ih (tr ++ (cs.map (fun c => (c, execCall ts c))).map
          (fun co => Entry.toolResult co.1 co.2.result)) t
        cases h1 : runSession llm (wrapTools true ts) fin₁ fuel
            (tr ++ (cs.map (fun c => (c, execCall ts c))).map
              (fun co => Entry.toolResult co.1 co.2.result)) t with
        | error e1 =>
          cases h2 : runSession llm ts fin₂ fuel
              (tr ++ (cs.map (fun c => (c, execCall ts c))).map
                (fun co => Entry.toolResult co.1 co.2.result)) t with
          | error e2 =>
            rw [h1, h2] at hih
            simp only [Except.map] at hih
            injection hih with hih
            simp only [h1, h2, hih]
          | ok o2 =>
            rw [h1, h2] at hih
            simp [Except.map] at hih
        | ok o1 =>
          obtain ⟨t1, n1, log1⟩ := o1
          cases h2 : runSession llm ts fin₂ fuel
              (tr ++ (cs.map (fun c => (c, execCall ts c))).map
                (fun co => Entry.toolResult co.1 co.2.result)) t with
          | error e2 =>
            rw [h1, h2] at hih
            simp [Except.map] at hih
          | ok o2 =>
            obtain ⟨t2, n2, log2⟩ := o2
            rw [h1, h2] at hih
            simp only [Except.map, Except.ok.injEq, Prod.mk.injEq] at hih
            obtain ⟨ht, hn⟩ := hih
            simp only [h1, h2, Except.map]
            simp [ht, hn]

/-- Claim C6: the final result of `generateResponse` is unaffected by the
status reporter — an absent reporter, a no-op reporter and a reporter whose
calls fail (their discarded, never-awaited outcomes are arbitrary) all yield
the same propagated-or-final result, so a failing reporter never aborts the
orchestration flow. -/
theorem claimC6_reporter_immaterial :
    ∀ llm registry (reporter : Option Reporter) messages,
      (generateResponseRun llm registry reporter messages).1 =
      (generateResponseRun llm registry none messages).1 := by
  intro llm registry reporter messages
  cases reporter with
  | none => rfl
  | some r =>
    simp only [generateResponseRun, Option.isSome_some, Option.isSome_none,
      Bool.false_eq_true, eq_self_iff_true, if_true, if_false]
    rw [wrapTools_false_eq]
    have h := session_result_eq llm registry ["is finalizing response..."] [] 10 messages ""
    cases h1 : runSession llm (wrapTools true registry) ["is finalizing response..."] 10
        messages "" with
    | error e1 =>
      cases h2 : runSession llm registry [] 10 messages "" with
      | error e2 =>
        rw [h1, h2] at h
        simp only [Except.map] at h
        injection h with h
        subst h
        rfl
      | ok o2 =>
        rw [h1, h2] at h
        simp [Except.map] at h
    | ok o1 =>
      obtain ⟨t1, n1, log1⟩ := o1
      cases h2 : runSession llm registry [] 10 messages "" with
      | error e2 =>
        rw [h1, h2] at h
        simp [Except.map] at h
      | ok o2 =>
        obtain ⟨t2, n2, log2⟩ := o2
        rw [h1, h2] at h
        simp only [Except.map, Except.ok.injEq, Prod.mk.injEq] at h
        obtain ⟨ht, -⟩ := h
        subst ht
        rfl

theorem collectAllResults_append (sfetch : String → Except String (RawResp SearchBody)) :
    ∀ (qs₁ qs₂ : List String),
      collectAllResults sfetch (qs₁ ++ qs₂) =
        collectAllResults sfetch qs₁ ++ collectAllResults sfetch qs₂ := by
  intro qs₁ qs₂
  induction qs₁ with
  | nil => simp [collectAllResults]
  | cons q rest ih => simp [collectAllResults, ih]

theorem mapME_ok_all {α β : Type} {f : α → Except String β} :
    ∀ {l : List α}, (∀ a ∈ l, ∃ b, f a = .ok b) →
      ∃ bs, mapME f l = .ok bs ∧ bs.length = l.length := by
  intro l
  induction l with
  | nil => intro _; exact ⟨[], rfl, rfl⟩
  | cons a rest ih =>
    intro h
    obtain ⟨b, hb⟩ := h a (List.mem_cons_self _ _)
    obtain ⟨bs, hbs, hlen⟩ := ih (fun x hx => h x (List.mem_cons_of_mem _ hx))
    exact ⟨b :: bs, by simp [mapME, hb, hbs], by simp [hlen]⟩

theorem mapME_append_error {α β : Type} {f : α → Except String β} {e : String} :
    ∀ {l₁ : List α} {x : α} {l₂ : List α},
      (∀ a ∈ l₁, ∃ b, f a = .ok b) → f x = .error e →
      mapME f (l₁ ++ x :: l₂) = .error e := by
  intro l₁
  induction l₁ with
  | nil => intro x l₂ _ hx; simp [mapME, hx]
  | cons a rest ih =>
    intro x l₂ h hx
    obtain ⟨b, hb⟩ := h a (List.mem_cons_self _ _)
    simp [mapME, hb, ih (fun y hy => h y (List.mem_cons_of_mem _ hy)) hx]

/-- Counterexample to C3 as stated: at `jinaCxOracles` the sibling content
fetch for `https://b.com/y` succeeds (it resolves to an `.ok` member), yet
the thrown content fetch for `https://a.com/x` rejects the whole
`Promise.all`, so the entire tool call is reported as the error-shaped
result — the failure of one content-fetch member aborts its successful
siblings, and a tool call with a non-empty successful aggregate is still
reported as failed. -/
theorem claimC3_counterexample :
    jinaCxOracles.contentFetch "https://b.com/y" =
      .ok (RawResp.mk true "OK" (.ok (ContentBody.mk 200 "ok" (some "words")))) ∧
    (∃ r, fetchContentFor (collectAllResults jinaCxOracles.searchFetch ["q1"])
      jinaCxOracles.contentFetch 1 = .ok r) ∧
    jinaSearchExecute (Env.mk (some "k") none none) "q" "d" "t" jinaCxOracles =
      .error "network failure" :=
  ⟨rfl, ⟨ResultWithContent.mk "q1" "https://b.com/y" "t2" "d2"
    ("Query: \"" ++ "q1" ++ "\"") ("words" ++ "..."), rfl⟩, rfl⟩

/-- Claim C3 (amended): in the `jinaSearch` fan-out, (a) any failure of a
subquery — thrown fetch, non-OK HTTP response, JSON-parse throw, non-200
structured code — degrades that subquery's contribution to the aggregate to
the empty list without affecting its siblings' contributions; (b) a non-OK
or non-200 content fetch degrades only that member to an error-annotated
entry; (c) all selected content fetches resolving gives one aggregate entry
per selected member; (d) however a content fetch that throws rejects the
whole fan-out (unlike subqueries, there is no per-member catch); and (e) a
zero-result aggregate is the only case reported with the no-results error
annotation. -/
theorem claimC3_failure_aggregation :
    (∀ sfetch (qs₁ : List String) (qbad : String) (qs₂ : List String),
      ((∃ e, sfetch qbad = .error e) ∨
       (∃ resp, sfetch qbad = .ok resp ∧ resp.ok = false) ∨
       (∃ resp e, sfetch qbad = .ok resp ∧ resp.ok = true ∧ resp.body = .error e) ∨
       (∃ resp body, sfetch qbad = .ok resp ∧ resp.ok = true ∧ resp.body = .ok body ∧
         body.code ≠ 200)) →
      perQueryResults sfetch qbad = [] ∧
      collectAllResults sfetch (qs₁ ++ qbad :: qs₂) =
        collectAllResults sfetch qs₁ ++ collectAllResults sfetch qs₂) ∧
    (∀ all cfetch (i : Nat) r resp, all[i]? = some r → cfetch r.url = .ok resp →
      resp.ok = false →
      fetchContentFor all cfetch i = .ok
        { query := r.query, url := r.url, title := r.title,
          description := r.description, source := r.source,
          content := "Failed to fetch content: " ++ resp.statusText }) ∧
    (∀ all cfetch (i : Nat) r (resp : RawResp ContentBody) body, all[i]? = some r →
      cfetch r.url = .ok resp → resp.ok = true → resp.body = .ok body → body.code ≠ 200 →
      fetchContentFor all cfetch i = .ok
        { query := r.query, url := r.url, title := r.title,
          description := r.description, source := r.source,
          content := "Failed to fetch content: " ++ body.status }) ∧
    (∀ all cfetch (sel : List Nat),
      (∀ i ∈ sel, ∃ r, fetchContentFor all cfetch i = .ok r) →
      ∃ rs, mapME (fetchContentFor all cfetch) sel = .ok rs ∧ rs.length = sel.length) ∧
    (∀ all cfetch (sel₁ : List Nat) (i : Nat) (sel₂ : List Nat) (e : String),
      (∀ j ∈ sel₁, ∃ r, fetchContentFor all cfetch j = .ok r) →
      fetchContentFor all cfetch i = .error e →
      mapME (fetchContentFor all cfetch) (sel₁ ++ i :: sel₂) = .error e) ∧
    (∀ env q d t (o : JinaOracles) (k : String) qs, env.jinaApiKey = some k →
      o.genQueries = .ok qs → collectAllResults o.searchFetch qs = [] →
      jinaSearchExecute env q d t o = .success
        { originalQuery := q, searchDate := d, searchTime := t, searches := qs,
          results := [], resultCount := 0,
          errorNote := some "No search results found across all queries" }) := by
  refine ⟨?_, ?_, ?_, ?_, ?_, ?_⟩
  · intro sfetch qs₁ qbad qs₂ hfail
    have hempty : perQueryResults sfetch qbad = [] := by
      rcases hfail with ⟨e, he⟩ | ⟨resp, hr, hok⟩ | ⟨resp, e, hr, hok, hb⟩ |
        ⟨resp, body, hr, hok, hb, hcode⟩
      · simp [perQueryResults, he]
      · simp [perQueryResults, hr, hok]
      · simp [perQueryResults, hr, hok, hb]
      · simp [perQueryResults, hr, hok, hb, hcode]
    refine ⟨hempty, ?_⟩
    rw [collectAllResults_append]
    simp [collectAllResults, hempty]
  · intro all cfetch i r resp hget hcf hok
    simp [fetchContentFor, hget, hcf, hok]
  · intro all cfetch i r resp body hget hcf hok hb hcode
    simp [fetchContentFor, hget, hcf, hok, hb, hcode]
  · intro all cfetch sel h
    exact mapME_ok_all h
  · intro all cfetch sel₁ i sel₂ e h hx
    exact mapME_append_error h hx
  · intro env q d t o k qs h hq hempty
    simp [jinaSearchExecute, jinaSearchRun, requireKey, h, hq, hempty,
      toToolResult, Bind.bind, Except.bind, Pure.pure, Except.pure]

/-- Witness for C3 (amended) at concrete inputs. -/
theorem claimC3_failure_aggregation_witness :
    (perQueryResults (fun _ => .error "x") "bad" = [] ∧
      collectAllResults (fun _ => .error "x") ([] ++ "bad" :: []) =
        collectAllResults (fun _ => .error "x") [] ++
        collectAllResults (fun _ => .error "x") []) ∧
    fetchContentFor [AllResult.mk "q" "u" "t" "d" "s"]
        (fun _ => .ok (RawResp.mk false "Not Found" (.error "nb"))) 0 =
      .ok { query := "q", url := "u", title := "t", description := "d", source := "s",
            content := "Failed to fetch content: " ++ "Not Found" } ∧
    fetchContentFor [AllResult.mk "q" "u" "t" "d" "s"]
        (fun _ => .ok (RawResp.mk true "OK" (.ok (ContentBody.mk 500 "ERR" none)))) 0 =
      .ok { query := "q", url := "u", title := "t", description := "d", source := "s",
            content := "Failed to fetch content: " ++ "ERR" } ∧
    (∃ rs, mapME (fetchContentFor [AllResult.mk "q" "u" "t" "d" "s"]
        (fun _ => .ok (RawResp.mk true "OK" (.ok (ContentBody.mk 200 "ok" (some "w")))))) [0] =
      .ok rs ∧ rs.length = [0].length) ∧
    mapME (fetchContentFor [AllResult.mk "q" "u" "t" "d" "s"] (fun _ => .error "boom"))
        ([] ++ 0 :: []) = .error "boom" ∧
    jinaSearchExecute (Env.mk (some "k") none none) "q" "d" "t"
        (JinaOracles.mk (.ok ["q1"]) (fun _ => .error "x") (.error "s") (fun _ => .error "c")) =
      .success { originalQuery := "q", searchDate := "d", searchTime := "t",
                 searches := ["q1"], results := [], resultCount := 0,
                 errorNote := some "No search results found across all queries" } := by
  obtain ⟨p1, p2, p3, p4, p5, p6⟩ := claimC3_failure_aggregation
  refine ⟨p1 _ [] "bad" [] (Or.inl ⟨"x", rfl⟩),
    p2 _ _ 0 (AllResult.mk "q" "u" "t" "d" "s") _ rfl rfl rfl,
    p3 _ _ 0 (AllResult.mk "q" "u" "t" "d" "s") _ _ rfl rfl rfl rfl (by decide), ?_,
    p5 _ _ [] 0 [] _ (by simp) rfl,
    p6 _ _ _ _ _ "k" ["q1"] rfl rfl rfl⟩
  refine p4 _ _ [0] ?_
  intro i hi
  simp only [List.mem_singleton] at hi
  subst hi
  exact ⟨_, rfl⟩

/-- Counterexample to C5 as stated: with a faulting LLM call, the
assistant-message caller (`handleNewAssistantMessage`) does not catch the
propagated fault — the handler itself rejects — and posts nothing at all, in
particular no generic apology, contradicting the claim that every caller of
`generateResponse` posts an apology and terminates the turn. -/
theorem claimC5_counterexample :
    (handleNewAssistantMessageRun assistantCxEvent assistantCxOracles).1 =
      .error "llm transport failure" ∧
    (handleNewAssistantMessageRun assistantCxEvent assistantCxOracles).2 = [] :=
  ⟨rfl, rfl⟩

theorem genRun_first_error (llm : List Entry → Except String Decision)
    (registry : List (String × ToolSpec)) (reporter : Option Reporter)
    (messages : List Entry) (e : String) (h : llm messages = .error e) :
    (generateResponseRun llm registry reporter messages).1 = .error e := by
  have hs : ∀ W F, runSession llm W F 10 messages "" = .error e := by
    intro W F
    simp [runSession, h]
  simp [generateResponseRun, hs]

/-- Claim C5 (amended): a fault of the LLM call inside `generateResponse` is
not caught internally — it propagates unchanged to the caller.  The
app-mention caller catches it and posts the generic apology; the
assistant-message caller has no such handler: the fault propagates out of it
with no apology (and no message at all) posted. -/
theorem claimC5_orchestration_error_propagation :
    (∀ llm registry (reporter : Option Reporter) (messages : List Entry) (e : String),
      llm messages = .error e →
      (generateResponseRun llm registry reporter messages).1 = .error e) ∧
    (∀ (ev : MsgEvent) (o : MentionOracles) (ts : String) (msgs : List Entry) (e : String),
      ev.bot_id = none → ev.bot_profile = false → ev.thread_ts.isSome = true →
      o.initialPost "is thinking..." = .ok ts →
      o.getThread = .ok msgs → o.llm msgs = .error e →
      (∃ ts2, o.initialPost apologyText = .ok ts2) →
      apologyText ∈ handleNewAppMentionRun ev o) ∧
    (∀ (ev : MsgEvent) (o : AssistantOracles) (msgs : List Entry) (e : String),
      ev.bot_id = none → ev.bot_profile = false → ev.thread_ts.isSome = true →
      o.getThread = .ok msgs → o.llm msgs = .error e →
      handleNewAssistantMessageRun ev o = (.error e, [])) := by
  refine ⟨genRun_first_error, ?_, ?_⟩
  · intro ev o ts msgs e hbot hprof htts hpost hthread hllm ⟨ts2, hts2⟩
    obtain ⟨tts, httsv⟩ := Option.isSome_iff_exists.mp htts
    have hgen := genRun_first_error o.llm o.registry (some (fun _ => .ok ())) msgs e hllm
    cases hsend : o.send apologyText <;>
      simp [handleNewAppMentionRun, hbot, hprof, httsv, hpost, hthread, hgen,
        apologyFlow, hts2, hsend]
  · intro ev o msgs e hbot hprof htts hthread hllm
    obtain ⟨tts, httsv⟩ := Option.isSome_iff_exists.mp htts
    have hgen := genRun_first_error o.llm o.registry (some o.setStatus) msgs e hllm
    simp [handleNewAssistantMessageRun, hbot, hprof, httsv, hthread, hgen]

/-- Witness for C5 (amended) at concrete inputs: the fault propagates out of
`generateResponse`, the app-mention caller posts the apology, and the
assistant-message caller propagates it with nothing posted. -/
theorem claimC5_orchestration_error_propagation_witness :
    (generateResponseRun (fun _ => .error "boom") [] none []).1 = .error "boom" ∧
    apologyText ∈ handleNewAppMentionRun
      (MsgEvent.mk none false (some "t1") "t0" "C1" "hi")
      (MentionOracles.mk (fun _ => .ok "ts1") (.ok [Entry.message "user" "hi"])
        (fun _ => .error "boom") [] (fun _ => .ok ())) ∧
    handleNewAssistantMessageRun assistantCxEvent assistantCxOracles =
      (.error "llm transport failure", []) := by
  obtain ⟨p1, p2, p3⟩ := claimC5_orchestration_error_propagation
  refine ⟨p1 _ _ _ _ _ rfl, p2 _ _ "ts1" [Entry.message "user" "hi"] "boom"
    rfl rfl rfl rfl rfl rfl ⟨"ts1", rfl⟩, p3 _ _ [Entry.message "user" "hi"]
    "llm transport failure" rfl rfl rfl rfl rfl⟩

theorem TraceOk_mono :
    ∀ {t : List (AgentCall × AgentCallOut)} {R R' : List String},
      (∀ x, x ∈ R → x ∈ R') → TraceOk R t → TraceOk R' t := by
  intro t
  induction t with
  | nil => intro R R' _ _; trivial
  | cons co rest ih =>
    intro R R' hsub h
    obtain ⟨h1, h2⟩ := h
    refine ⟨fun i hi => hsub i (h1 i hi), ih ?_ h2⟩
    intro x hx
    rcases List.mem_append.mp hx with hx | hx
    · exact List.mem_append_left _ (hsub x hx)
    · exact List.mem_append_right _ hx

theorem TraceOk_of_all :
    ∀ (t : List (AgentCall × AgentCallOut)) (R : List String),
      (∀ co ∈ t, ∀ i ∈ callRefIds co.1, i ∈ R) → TraceOk R t := by
  intro t
  induction t with
  | nil => intro R _; trivial
  | cons co rest ih =>
    intro R h
    refine ⟨h co (List.mem_cons_self _ _), ih _ ?_⟩
    intro co' hco' i hi
    exact List.mem_append_left _ (h co' (List.mem_cons_of_mem _ hco') i hi)

theorem TraceOk_append :
    ∀ (t₁ : List (AgentCall × AgentCallOut)) {t₂ : List (AgentCall × AgentCallOut)}
      {R : List String},
      TraceOk R t₁ → TraceOk (R ++ (t₁.map outResolvedIds).flatten) t₂ →
      TraceOk R (t₁ ++ t₂) := by
  intro t₁
  induction t₁ with
  | nil =>
    intro t₂ R _ h2
    simpa using h2
  | cons co t₁ ih =>
    intro t₂ R h1 h2
    obtain ⟨hrefs, hrest⟩ := h1
    refine ⟨hrefs, ih hrest ?_⟩
    have : R ++ ((co :: t₁).map outResolvedIds).flatten =
        (R ++ outResolvedIds co) ++ (t₁.map outResolvedIds).flatten := by
      simp [List.append_assoc]
    rw [this] at h2
    exact h2

theorem resolvedInEntries_append (tr es : List AEntry) :
    resolvedInEntries (tr ++ es) = resolvedInEntries tr ++ resolvedInEntries es := by
  simp [resolvedInEntries]

theorem resolvedInEntries_toolRecs (outs : List (AgentCall × AgentCallOut)) :
    resolvedInEntries (outs.map (fun co => AEntry.toolRec co.1 co.2)) =
      (outs.map outResolvedIds).flatten := by
  simp only [resolvedInEntries, List.map_map]
  congr 1

theorem agentSession_traceOk (llm : List AEntry → Except String AgentDecision)
    (env : Env) (store : AgentStore) (hcomp : LookupCompliant llm) :
    ∀ (fuel : Nat) (tr : List AEntry) (last t : String) (n : Nat)
      (trace : List (AgentCall × AgentCallOut)),
      runAgentSession llm env store fuel tr last = .ok (t, n, trace) →
      TraceOk (resolvedInEntries tr) trace := by
  intro fuel
  induction fuel with
  | zero =>
    intro tr last t n trace h
    simp only [runAgentSession, Except.ok.injEq, Prod.mk.injEq] at h
    obtain ⟨-, -, htrace⟩ := h
    subst htrace
    trivial
  | succ fuel ih =>
    intro tr last t n trace h
    simp only [runAgentSession] at h
    cases hd : llm tr with
    | error e => simp only [hd] at h; cases h
    | ok d =>
      cases d with
      | final t0 =>
        simp only [hd, Except.ok.injEq, Prod.mk.injEq] at h
        obtain ⟨-, -, htrace⟩ := h
        subst htrace
        trivial
      | calls t0 cs =>
        cases hr : runAgentSession llm env store fuel
            (tr ++ (cs.map (fun c => (c, execAgentCall env store c))).map
              (fun co => AEntry.toolRec co.1 co.2)) t0 with
        | error e => simp only [hd, hr] at h; cases h
        | ok out =>
          obtain ⟨t2, n2, trace2⟩ := out
          simp only [hd, hr, Except.ok.injEq, Prod.mk.injEq] at h
          obtain ⟨-, -, htrace⟩ := h
          subst htrace
          apply TraceOk_append
          · apply TraceOk_of_all
            intro co hco i hi
            obtain ⟨c, hc, hco'⟩ := List.mem_map.mp hco
            refine hcomp tr t0 cs hd c hc i ?_
            rw [← hco'] at hi
            exact hi
          · have h2 := ih (tr ++ (cs.map (fun c => (c, execAgentCall env store c))).map
              (fun co => AEntry.toolRec co.1 co.2)) t0 t2 n2 trace2 hr
            rw [resolvedInEntries_append, resolvedInEntries_toolRecs] at h2
            exact h2

/-- Counterexample to C9 as stated: nothing in the code enforces the
lookup-before-edit discipline — with an LLM collaborator that fabricates a
section id, the nested agent run executes a `makeEdits` deletion whose
section id was never resolved by any prior `sectionLookup` (the run's trace
violates the lookup discipline), and the edit is accepted by the store. -/
theorem claimC9_counterexample :
    canvasEditorAgentExecute (Env.mk none none (some "tok")) "C1" "delete the todo section"
        agentCxInfoFetch (fun _ => .ok (TextResp.mk true "OK" "# Doc"))
        agentCxLlm agentCxStore =
      .success { text := "done", trace := agentCxTrace } ∧
    deleteIds (EditChange.mk ChangeOp.delete (some "sec-fabricated") none) =
      ["sec-fabricated"] ∧
    ¬ TraceOk [] agentCxTrace := by
  refine ⟨rfl, rfl, ?_⟩
  intro h
  obtain ⟨h1, -⟩ := h
  exact absurd (h1 "sec-fabricated" (by simp [agentCxTrace, callRefIds, changeIds]))
    (by simp)

/-- Claim C9 (amended): the lookup-before-edit workflow lives in the
sub-agent's instructions, not in code-level enforcement; whenever the nested
LLM collaborator is lookup-compliant (it only references section ids
resolved by lookups recorded in its transcript), every run's trace is
lookup-disciplined: every section id referenced by a `makeEdits` call — in
particular every deletion id — was resolved by an earlier `sectionLookup` of
the same run. -/
theorem claimC9_lookup_before_edit :
    (∀ llm env store, LookupCompliant llm →
      ∀ (fuel : Nat) (tr : List AEntry) (last t : String) (n : Nat) trace,
        runAgentSession llm env store fuel tr last = .ok (t, n, trace) →
        TraceOk (resolvedInEntries tr) trace) ∧
    (∀ llm env store (cid rc : String) iF cF out, LookupCompliant llm →
      canvasEditorAgentExecute env cid rc iF cF llm store = .success out →
      TraceOk [] out.trace) ∧
    (∀ (cid : String) (chs : List EditChange) (ch : EditChange), ch ∈ chs →
      ∀ i ∈ deleteIds ch, i ∈ callRefIds (AgentCall.edits cid chs)) := by
  refine ⟨?_, ?_, ?_⟩
  · intro llm env store hcomp
    exact agentSession_traceOk llm env store hcomp
  · intro llm env store cid rc iF cF out hcomp hsucc
    cases hread : canvasReadExecute env iF cF with
    | error e => simp [canvasEditorAgentExecute, hread] at hsucc
    | success doc =>
      cases hs : runAgentSession llm env store 8
          [AEntry.userMsg (agentPrompt cid doc.content rc)] "" with
      | error e => simp [canvasEditorAgentExecute, hread, hs] at hsucc
      | ok o =>
        obtain ⟨t, n, trace⟩ := o
        have htrace := agentSession_traceOk llm env store hcomp 8
          [AEntry.userMsg (agentPrompt cid doc.content rc)] "" t n trace hs
        have hres : resolvedInEntries [AEntry.userMsg (agentPrompt cid doc.content rc)] =
          [] := rfl
        rw [hres] at htrace
        simp only [canvasEditorAgentExecute, hread, hs] at hsucc
        injection hsucc with h2
        subst h2
        exact htrace
  · intro cid chs ch hch i hi
    have hci : i ∈ changeIds ch := by
      obtain ⟨op, sid, md⟩ := ch
      cases op <;> simp only [deleteIds] at hi
      all_goals first | exact hi | simp at hi
    simp only [callRefIds]
    exact List.mem_flatten.mpr ⟨changeIds ch, List.mem_map_of_mem _ hch, hci⟩

/-- Witness for C9 (amended): a compliant collaborator (one that never
issues tool calls) yields a lookup-disciplined trace at both the session
and the tool level, and a deletion id is among a call's referenced ids. -/
theorem claimC9_lookup_before_edit_witness :
    TraceOk (resolvedInEntries ([] : List AEntry)) [] ∧
    TraceOk [] (AgentOut.mk "x" []).trace ∧
    "s1" ∈ callRefIds (AgentCall.edits "C1"
      [EditChange.mk ChangeOp.delete (some "s1") none]) := by
  obtain ⟨p1, p2, p3⟩ := claimC9_lookup_before_edit
  refine ⟨?_, ?_, ?_⟩
  · exact p1 (fun _ => .ok (.final "x")) (Env.mk none none (some "tok")) agentCxStore
      (fun tr t cs h => by simp at h) 8 [] "" "x" 1 [] rfl
  · exact p2 (fun _ => .ok (.final "x")) (Env.mk none none (some "tok")) agentCxStore
      "C1" "rc" agentCxInfoFetch (fun _ => .ok (TextResp.mk true "OK" "# Doc"))
      (AgentOut.mk "x" []) (fun tr t cs h => by simp at h) rfl
  · exact p3 "C1" [EditChange.mk ChangeOp.delete (some "s1") none]
      (EditChange.mk ChangeOp.delete (some "s1") none) (by simp)
      "s1" (by simp [deleteIds, changeIds])
